import Mathlib

/-!
Verification development for the transaction-execution and fee-metering core
of the sequencer repository.  The repository snapshot contains the test suite
(account_transactions_test.rs); the production crates it exercises (the
account-transaction state machine, resource ledger, layered state and the
concurrency coordinator) are modelled here from the specification, faithful
to its words, and the claims are settled against that model.
-/

namespace Sequencer

/-- Fee currency: legacy (v0/v1) transactions pay in Eth, v3 transactions in
Strk. -/
inductive FeeType
  | eth
  | strk
deriving DecidableEq, Repr

/-- Transaction versions appearing in the tests: v0 and v1 are legacy max-fee
transactions, v3 carries explicit resource bounds. -/
inductive TxVersion
  | v0
  | v1
  | v3
deriving DecidableEq, Repr

/-- A single resource bound: (max_amount, max_price_per_unit). -/
structure ResourceBounds where
  max_amount : Nat
  max_price_per_unit : Nat
deriving DecidableEq, Repr

/-- All-resources bounds: independent bounds on L1 gas, L2 gas and L1 data
gas. -/
structure AllResourceBounds where
  l1_gas : ResourceBounds
  l2_gas : ResourceBounds
  l1_data_gas : ResourceBounds
deriving DecidableEq, Repr

/-- Either a single L1-gas-only bound or an all-resources bound. -/
inductive ValidResourceBounds
  | l1Gas (b : ResourceBounds)
  | allResources (b : AllResourceBounds)
deriving DecidableEq, Repr

/-- The two gas-computation modes: NoL2Gas folds L2 execution cost into L1
gas via a fixed steps-per-L1-gas ratio; All prices the three axes
independently. -/
inductive GasVectorComputationMode
  | noL2Gas
  | all
deriving DecidableEq, Repr

/-- Modelled from the spec: the gas-computation mode of a set of resource
bounds (ValidResourceBounds::get_gas_vector_computation_mode). -/
def ValidResourceBounds.mode : ValidResourceBounds → GasVectorComputationMode
  | .l1Gas _ => .noL2Gas
  | .allResources _ => .all

/-- Canonical gas-unit vector: {l1_gas, l2_gas, l1_data_gas}. -/
structure GasVector where
  l1_gas : Nat
  l2_gas : Nat
  l1_data_gas : Nat
deriving DecidableEq, Repr

/-- Gas prices for the three resource axes, for one fee type. -/
structure GasPriceVector where
  l1_gas_price : Nat
  l2_gas_price : Nat
  l1_data_gas_price : Nat
deriving DecidableEq, Repr

/-- Modelled from the spec: versioned resource-cost constants (the
VersionedConstants consumed by the blockifier).  The L1-gas cost of one step
is the rational step_cost_num / step_cost_den; its reciprocal is the
steps-per-L1-gas conversion factor.  step_gas_cost is the L2 gas charged per
step in All mode. -/
structure VersionedConstants where
  step_cost_num : Nat
  step_cost_den : Nat
  step_gas_cost : Nat
  invoke_tx_max_n_steps : Nat
  validate_max_n_steps : Nat
  max_recursion_depth : Nat
  da_storage_update_cost : Nat
  da_contract_update_cost : Nat
deriving DecidableEq, Repr

/-- Modelled from the spec: immutable per-block configuration (BlockContext):
cost constants, gas prices per fee type, fee-token addresses and the
sequencer address. -/
structure BlockContext where
  vc : VersionedConstants
  eth_prices : GasPriceVector
  strk_prices : GasPriceVector
  sequencer_address : Nat
  eth_fee_token : Nat
  strk_fee_token : Nat
deriving DecidableEq, Repr

/-- Per-layer state maps: storage writes or initial reads, nonces, class
hashes, plus the set of newly declared classes (association lists; the first
binding for a key is the current one). -/
structure StateMaps where
  storage : List ((Nat × Nat) × Nat)
  nonces : List (Nat × Nat)
  class_hashes : List (Nat × Nat)
  declared : List Nat
deriving DecidableEq, Repr

/-- The empty state maps. -/
def StateMaps.empty : StateMaps := ⟨[], [], [], []⟩

/-- Modelled from the spec: a transactional state layer (CachedState) over a
base state reader.  Reads fall through writes, then recorded initial reads,
then the base reader (recording the value as the key's initial read,
first-read-wins); writes go only to the writes maps. -/
structure CachedState where
  base_storage : Nat × Nat → Nat
  base_nonce : Nat → Nat
  base_class_hash : Nat → Nat
  base_declared : Nat → Bool
  initial_reads : StateMaps
  writes : StateMaps

/-- Insert a binding, replacing any previous binding of the same key. -/
def upsert {α β : Type} [BEq α] (l : List (α × β)) (k : α) (v : β) :
    List (α × β) :=
  (k, v) :: l.filter (fun p => p.1 != k)

/-- Read a storage cell through the layer, recording the first read of the
key as its initial read. -/
def CachedState.readStorage (s : CachedState) (k : Nat × Nat) :
    Nat × CachedState :=
  match s.writes.storage.lookup k with
  | some v => (v, s)
  | none =>
    match s.initial_reads.storage.lookup k with
    | some v => (v, s)
    | none =>
      let v := s.base_storage k
      (v, { s with initial_reads :=
              { s.initial_reads with storage := (k, v) :: s.initial_reads.storage } })

/-- Write a storage cell into the layer's writes map. -/
def CachedState.writeStorage (s : CachedState) (k : Nat × Nat) (v : Nat) :
    CachedState :=
  { s with writes := { s.writes with storage := upsert s.writes.storage k v } }

/-- Read a nonce through the layer, recording the initial read. -/
def CachedState.readNonce (s : CachedState) (a : Nat) : Nat × CachedState :=
  match s.writes.nonces.lookup a with
  | some v => (v, s)
  | none =>
    match s.initial_reads.nonces.lookup a with
    | some v => (v, s)
    | none =>
      let v := s.base_nonce a
      (v, { s with initial_reads :=
              { s.initial_reads with nonces := (a, v) :: s.initial_reads.nonces } })

/-- Write a nonce into the layer's writes map. -/
def CachedState.writeNonce (s : CachedState) (a : Nat) (v : Nat) : CachedState :=
  { s with writes := { s.writes with nonces := upsert s.writes.nonces a v } }

/-- Read a class hash through the layer, recording the initial read. -/
def CachedState.readClassHash (s : CachedState) (a : Nat) : Nat × CachedState :=
  match s.writes.class_hashes.lookup a with
  | some v => (v, s)
  | none =>
    match s.initial_reads.class_hashes.lookup a with
    | some v => (v, s)
    | none =>
      let v := s.base_class_hash a
      (v, { s with initial_reads :=
              { s.initial_reads with class_hashes := (a, v) :: s.initial_reads.class_hashes } })

/-- Write a class hash into the layer's writes map. -/
def CachedState.writeClassHash (s : CachedState) (a : Nat) (v : Nat) :
    CachedState :=
  { s with writes := { s.writes with class_hashes := upsert s.writes.class_hashes a v } }

/-- Is a class hash already declared (base registry or this layer)? -/
def CachedState.isDeclared (s : CachedState) (ch : Nat) : Bool :=
  s.base_declared ch || s.writes.declared.contains ch

/-- Register a class as declared in this layer. -/
def CachedState.declareClass (s : CachedState) (ch : Nat) : CachedState :=
  { s with writes := { s.writes with declared := ch :: s.writes.declared } }

/-- Pure observer: the current value of a storage cell as seen through the
layer (no read recording). -/
def CachedState.storageAt (s : CachedState) (k : Nat × Nat) : Nat :=
  match s.writes.storage.lookup k with
  | some v => v
  | none =>
    match s.initial_reads.storage.lookup k with
    | some v => v
    | none => s.base_storage k

/-- Pure observer: the current nonce of an address. -/
def CachedState.nonceAt (s : CachedState) (a : Nat) : Nat :=
  match s.writes.nonces.lookup a with
  | some v => v
  | none =>
    match s.initial_reads.nonces.lookup a with
    | some v => v
    | none => s.base_nonce a

/-- Pure observer: the current class hash at an address. -/
def CachedState.classHashAt (s : CachedState) (a : Nat) : Nat :=
  match s.writes.class_hashes.lookup a with
  | some v => v
  | none =>
    match s.initial_reads.class_hashes.lookup a with
    | some v => v
    | none => s.base_class_hash a

/-- Storage key of the low 128 bits of an account's fee-token balance. -/
def balanceKeyLow (a : Nat) : Nat := 2 * a

/-- Storage key of the high 128 bits of an account's fee-token balance. -/
def balanceKeyHigh (a : Nat) : Nat := 2 * a + 1

/-- Modelled from the spec: the storage keys of the sequencer's fee-token
balance cell (get_sequencer_balance_keys). -/
def get_sequencer_balance_keys (bc : BlockContext) : Nat × Nat :=
  (balanceKeyLow bc.sequencer_address, balanceKeyHigh bc.sequencer_address)

/-- Pure observer: an account's (low, high) fee-token balance pair. -/
def CachedState.feeTokenBalance (s : CachedState) (token : Nat) (a : Nat) :
    Nat × Nat :=
  (s.storageAt (token, balanceKeyLow a), s.storageAt (token, balanceKeyHigh a))

/-- The initial (layer-entry) value of a storage cell: the recorded initial
read if any, otherwise the base value. -/
def CachedState.initialStorageOf (s : CachedState) (k : Nat × Nat) : Nat :=
  match s.initial_reads.storage.lookup k with
  | some v => v
  | none => s.base_storage k

/-- The initial (layer-entry) nonce of an address. -/
def CachedState.initialNonceOf (s : CachedState) (a : Nat) : Nat :=
  match s.initial_reads.nonces.lookup a with
  | some v => v
  | none => s.base_nonce a

/-- The initial (layer-entry) class hash of an address. -/
def CachedState.initialClassHashOf (s : CachedState) (a : Nat) : Nat :=
  match s.initial_reads.class_hashes.lookup a with
  | some v => v
  | none => s.base_class_hash a

/-- Net storage changes of the layer: written cells whose value differs from
the layer-entry value (get_actual_state_changes). -/
def CachedState.storageDiff (s : CachedState) : List ((Nat × Nat) × Nat) :=
  s.writes.storage.filter (fun p => p.2 != s.initialStorageOf p.1)

/-- Net nonce changes of the layer. -/
def CachedState.nonceDiff (s : CachedState) : List (Nat × Nat) :=
  s.writes.nonces.filter (fun p => p.2 != s.initialNonceOf p.1)

/-- Net class-hash changes of the layer. -/
def CachedState.classHashDiff (s : CachedState) : List (Nat × Nat) :=
  s.writes.class_hashes.filter (fun p => p.2 != s.initialClassHashOf p.1)

/-- Counts of state changes used as fee-charge DA inputs. -/
structure StateChangesCount where
  n_storage_updates : Nat
  n_modified_contracts : Nat
deriving DecidableEq, Repr

/-- Modelled from the spec: count_for_fee_charge — derives the number of
modified storage cells and contracts from the layer's net changes, adding the
sender's fee-token balance cell (the upcoming fee transfer) and excluding the
fee-token contract from the modified-contract count. -/
def countForFeeCharge (s : CachedState) (sender : Nat) (fee_token : Nat) :
    StateChangesCount :=
  let storageKeys := s.storageDiff.map (fun p => p.1)
  let senderBalanceKey := (fee_token, balanceKeyLow sender)
  let withFeeTransfer :=
    if storageKeys.contains senderBalanceKey then storageKeys
    else senderBalanceKey :: storageKeys
  let contracts :=
    ((s.storageDiff.map (fun p => p.1.1)) ++ (s.nonceDiff.map (fun p => p.1))
      ++ (s.classHashDiff.map (fun p => p.1))).dedup
  { n_storage_updates := withFeeTransfer.length,
    n_modified_contracts := (contracts.filter (fun a => a != fee_token)).length }

/-- Ceiling division on naturals. -/
def ceilDiv (a b : Nat) : Nat := (a + b - 1) / b

/-- Modelled from the spec: the DA gas charged for a set of state changes
(independent of the gas-bound mode). -/
def daGasOf (vc : VersionedConstants) (c : StateChangesCount) : Nat :=
  c.n_storage_updates * vc.da_storage_update_cost
    + c.n_modified_contracts * vc.da_contract_update_cost

/-- Modelled from the spec: the gas vector computed from the charged step
count and the DA gas.  NoL2Gas folds step cost into L1 gas via the step-cost
fraction; All prices steps as L2 gas at step_gas_cost per step.  The DA
component is the same in both modes. -/
def gas_vector_of (vc : VersionedConstants) (mode : GasVectorComputationMode)
    (steps da_gas : Nat) : GasVector :=
  match mode with
  | .noL2Gas =>
    { l1_gas := ceilDiv (steps * vc.step_cost_num) vc.step_cost_den,
      l2_gas := 0, l1_data_gas := da_gas }
  | .all =>
    { l1_gas := 0, l2_gas := steps * vc.step_gas_cost, l1_data_gas := da_gas }

/-- Modelled from the spec: get_fee_by_gas_vector — the fee is the sum over
resource kinds of consumed amount times the price per unit. -/
def get_fee_by_gas_vector (p : GasPriceVector) (g : GasVector) : Nat :=
  g.l1_gas * p.l1_gas_price + g.l2_gas * p.l2_gas_price
    + g.l1_data_gas * p.l1_data_gas_price

/-- The gas prices of a fee type under a block context. -/
def BlockContext.prices (bc : BlockContext) : FeeType → GasPriceVector
  | .eth => bc.eth_prices
  | .strk => bc.strk_prices

/-- The fee-token contract address of a fee type. -/
def BlockContext.fee_token (bc : BlockContext) : FeeType → Nat
  | .eth => bc.eth_fee_token
  | .strk => bc.strk_fee_token

/-- Modelled from the spec: behaviour of the feature contracts invoked by the
tests, as observed by the execution envelope: a trivial call, a call that
writes a storage cell and then fails, a recursive call that succeeds unless
the step budget is exhausted, and a recursive call whose innermost frame
asserts false. -/
inductive CallSpec
  | trivialCall
  | writeAndRevert (target : Nat) (key : Nat) (value : Nat)
  | recurse (depth : Nat)
  | recursiveFail (depth : Nat)
deriving DecidableEq, Repr

/-- Step cost of the trivial call. -/
def trivialCallSteps : Nat := 600

/-- Step cost of the write-and-revert call. -/
def writeAndRevertSteps : Nat := 700

/-- Base step cost of a recursive call (depth 0). -/
def recurseBaseSteps : Nat := 1200

/-- Additional step cost of each extra recursion frame. -/
def recursePerCallSteps : Nat := 800

/-- Step cost of registering a declared class. -/
def declareSteps : Nat := 300

/-- Modelled from the spec: the external interpreter invocation.  Given the
call description, the remaining step budget and the state, it returns the
updated state, the steps consumed and an optional failure.  Exhausting the
budget surfaces as a distinguishable "no remaining steps" failure after
burning the whole remaining budget. -/
def runCall (call : CallSpec) (limit : Nat) (s : CachedState) :
    CachedState × Nat × Option String :=
  match call with
  | .trivialCall =>
    if trivialCallSteps ≤ limit then (s, trivialCallSteps, none)
    else (s, limit, some "no remaining steps")
  | .writeAndRevert t k v =>
    if writeAndRevertSteps ≤ limit then
      (s.writeStorage (t, k) v, writeAndRevertSteps, some "execution failed")
    else (s, limit, some "no remaining steps")
  | .recurse d =>
    let total := recurseBaseSteps + recursePerCallSteps * d
    if total ≤ limit then (s, total, none)
    else (s, limit, some "no remaining steps")
  | .recursiveFail d =>
    let total := recurseBaseSteps + recursePerCallSteps * d
    if total ≤ limit then (s, total, some "recursion asserted false")
    else (s, limit, some "no remaining steps")

/-- The kind-specific payload of an account transaction: invoke (a target
call), declare (class registration) or deploy-account (constructor run and
class-hash write at the deployed address). -/
inductive TxKind
  | invoke (call : CallSpec)
  | declare (class_hash : Nat)
  | deployAccount (class_hash : Nat) (address : Nat) (ctor_ok : Bool)
deriving DecidableEq, Repr

/-- Modelled from the spec: the resolved view of a submitted account
transaction: sender, version, max fee or resource bounds, the authorization
logic's behaviour (outcome and step cost) and the kind-specific payload. -/
structure AccountTransaction where
  sender : Nat
  version : TxVersion
  max_fee : Nat
  resource_bounds : ValidResourceBounds
  validate_ok : Bool
  validate_steps : Nat
  kind : TxKind
deriving DecidableEq, Repr

/-- Fee type derived from the version: legacy versions pay in Eth, v3 pays in
Strk. -/
def AccountTransaction.fee_type (tx : AccountTransaction) : FeeType :=
  match tx.version with
  | .v0 => .eth
  | .v1 => .eth
  | .v3 => .strk

/-- The gas-computation mode governing a transaction. -/
def AccountTransaction.gasMode (tx : AccountTransaction) :
    GasVectorComputationMode :=
  match tx.version with
  | .v0 => .noL2Gas
  | .v1 => .noL2Gas
  | .v3 => tx.resource_bounds.mode

/-- Sum of the max amounts of a set of resource bounds. -/
def ValidResourceBounds.sumAmounts : ValidResourceBounds → Nat
  | .l1Gas b => b.max_amount
  | .allResources b =>
    b.l1_gas.max_amount + b.l2_gas.max_amount + b.l1_data_gas.max_amount

/-- Modelled from the spec: enforce_fee — fee enforcement is disabled exactly
when the resolved fee/resource bounds are all zero (max fee for legacy
versions, bound amounts for v3). -/
def AccountTransaction.enforce_fee (tx : AccountTransaction) : Bool :=
  match tx.version with
  | .v0 => tx.max_fee != 0
  | .v1 => tx.max_fee != 0
  | .v3 => tx.resource_bounds.sumAmounts != 0

/-- Modelled from the spec: the bound-derived maximal fee of a transaction —
the declared max fee for legacy versions, the sum of amount times price over
the bounds for v3. -/
def AccountTransaction.max_possible_fee (tx : AccountTransaction) : Nat :=
  match tx.version with
  | .v0 => tx.max_fee
  | .v1 => tx.max_fee
  | .v3 =>
    match tx.resource_bounds with
    | .l1Gas b => b.max_amount * b.max_price_per_unit
    | .allResources b =>
      b.l1_gas.max_amount * b.l1_gas.max_price_per_unit
        + b.l2_gas.max_amount * b.l2_gas.max_price_per_unit
        + b.l1_data_gas.max_amount * b.l1_data_gas.max_price_per_unit

/-- Conversion of an L1-gas amount into a step budget: multiply by the
steps-per-L1-gas ratio (the reciprocal of the step cost) with a final
floor. -/
def l1_gas_to_steps (vc : VersionedConstants) (gas : Nat) : Nat :=
  gas * vc.step_cost_den / vc.step_cost_num

/-- The integral steps-per-L1-gas factor of the cost constants. -/
def steps_per_l1_gas (vc : VersionedConstants) : Nat :=
  vc.step_cost_den / vc.step_cost_num

/-- Modelled from the spec: the max-steps budget of the execution context.
Legacy max-fee transactions convert the max fee to L1 gas (divide by the
L1-gas price) and then to steps; v3 L1-only bounds convert the L1-gas bound
the same way; v3 all-resources bounds divide the L2-gas bound by the per-step
gas cost (the L1 and DA bounds do not gate the step count). -/
def steps_for_budget (bc : BlockContext) (tx : AccountTransaction) : Nat :=
  match tx.version with
  | .v0 => l1_gas_to_steps bc.vc (tx.max_fee / bc.eth_prices.l1_gas_price)
  | .v1 => l1_gas_to_steps bc.vc (tx.max_fee / bc.eth_prices.l1_gas_price)
  | .v3 =>
    match tx.resource_bounds with
    | .l1Gas b => l1_gas_to_steps bc.vc b.max_amount
    | .allResources b => b.l2_gas.max_amount / bc.vc.step_gas_cost

/-- Charged execution resources: committed VM steps plus the steps burned in
a reverted execute phase. -/
structure ComputationResources where
  vm_steps : Nat
  n_reverted_steps : Nat
deriving DecidableEq, Repr

/-- Total steps charged for: committed plus reverted. -/
def ComputationResources.total_charged_steps (r : ComputationResources) : Nat :=
  r.vm_steps + r.n_reverted_steps

/-- The transaction's final receipt: fee charged, gas vector, DA gas
component, charged resources and the revert error (present exactly when the
execute phase or a later check failed and was rolled back). -/
structure Receipt where
  fee : Nat
  gas : GasVector
  da_gas : Nat
  resources : ComputationResources
  revert_error : Option String
deriving DecidableEq, Repr

/-- Execution flags passed by the caller: charge the fee, run validation,
and concurrency mode for the fee transfer. -/
structure ExecutionFlags where
  charge_fee : Bool
  validate : Bool
  concurrency_mode : Bool
deriving DecidableEq, Repr

/-- Is the transaction a declare of a class that is already declared? -/
def isDuplicateDeclare (tx : AccountTransaction) (s : CachedState) : Bool :=
  match tx.kind with
  | .declare ch => s.isDeclared ch
  | _ => false

/-- Modelled from the spec: the post-execution bound check
(assert_actual_fee_in_bounds); when actual consumption exceeds the declared
bounds, the result names the insufficient resource kind (max fee for
deprecated transactions, L1 gas vs L2 gas vs L1 data gas for v3). -/
def boundsExceeded (tx : AccountTransaction) (gas : GasVector) (fee : Nat) :
    Option String :=
  match tx.version with
  | .v0 => if tx.max_fee < fee then some "Insufficient max fee" else none
  | .v1 => if tx.max_fee < fee then some "Insufficient max fee" else none
  | .v3 =>
    match tx.resource_bounds with
    | .l1Gas b =>
      if b.max_amount < gas.l1_gas then some "Insufficient max L1Gas" else none
    | .allResources b =>
      if b.l1_gas.max_amount < gas.l1_gas then some "Insufficient max L1Gas"
      else if b.l2_gas.max_amount < gas.l2_gas then some "Insufficient max L2Gas"
      else if b.l1_data_gas.max_amount < gas.l1_data_gas then
        some "Insufficient max L1DataGas"
      else none

/-- Compute the DA gas, gas vector and fee of a transaction from the state
the receipt will be based on and the charged resources. -/
def receiptParts (bc : BlockContext) (tx : AccountTransaction)
    (s : CachedState) (r : ComputationResources) : Nat × GasVector × Nat :=
  let count := countForFeeCharge s tx.sender (bc.fee_token tx.fee_type)
  let da := daGasOf bc.vc count
  let gas := gas_vector_of bc.vc tx.gasMode r.total_charged_steps da
  (da, gas, get_fee_by_gas_vector (bc.prices tx.fee_type) gas)

/-- Modelled from the spec: the fee-transfer sub-phase run by the concurrency
coordinator, followed by receipt assembly.  The sender's balance is debited;
when concurrency mode is on and the sender is not the sequencer the
sequencer-balance credit is deferred (its cell is neither read nor written),
otherwise the sequencer's balance cell is read and credited immediately.
Insufficient balance at charge time is fatal: the pre-attempt state is
returned. -/
def chargeAndFinish (bc : BlockContext) (flags : ExecutionFlags)
    (tx : AccountTransaction) (s0 sF : CachedState) (r : ComputationResources)
    (rerr : Option String) (da : Nat) (gas : GasVector) (fee : Nat) :
    Except String Receipt × CachedState :=
  let receipt : Receipt :=
    { fee := fee, gas := gas, da_gas := da, resources := r, revert_error := rerr }
  if flags.charge_fee then
    let token := bc.fee_token tx.fee_type
    let senderLow := (sF.readStorage (token, balanceKeyLow tx.sender)).1
    let s1 := (sF.readStorage (token, balanceKeyLow tx.sender)).2
    let senderHigh := (s1.readStorage (token, balanceKeyHigh tx.sender)).1
    let s2 := (s1.readStorage (token, balanceKeyHigh tx.sender)).2
    if senderLow < fee then (.error "insufficient balance to cover fee", s0)
    else
      let s3 := (s2.writeStorage (token, balanceKeyLow tx.sender) (senderLow - fee)).writeStorage
        (token, balanceKeyHigh tx.sender) senderHigh
      if flags.concurrency_mode && tx.sender != bc.sequencer_address then
        (.ok receipt, s3)
      else
        let seqLow := (s3.readStorage (token, balanceKeyLow bc.sequencer_address)).1
        let s4 := (s3.readStorage (token, balanceKeyLow bc.sequencer_address)).2
        let seqHigh := (s4.readStorage (token, balanceKeyHigh bc.sequencer_address)).1
        let s5 := (s4.readStorage (token, balanceKeyHigh bc.sequencer_address)).2
        let s6 := (s5.writeStorage (token, balanceKeyLow bc.sequencer_address) (seqLow + fee)).writeStorage
          (token, balanceKeyHigh bc.sequencer_address) seqHigh
        (.ok receipt, s6)
  else (.ok receipt, sF)

/-- The step budget governing the metered phases: the bound-derived budget
capped by the block ceiling when steps are limited by resources, otherwise
just the block ceiling. -/
def execBudget (bc : BlockContext) (flags : ExecutionFlags)
    (tx : AccountTransaction) : Nat :=
  if flags.charge_fee then
    min bc.vc.invoke_tx_max_n_steps (steps_for_budget bc tx)
  else bc.vc.invoke_tx_max_n_steps

/-- Bump an address's nonce by one through the layer. -/
def bumpNonce (s : CachedState) (a : Nat) : CachedState :=
  (s.readNonce a).2.writeNonce a ((s.readNonce a).1 + 1)

/-- Modelled from the spec: the account-transaction state machine
(AccountTransaction::execute_raw).  Orchestrates admission checks, nonce
bump, the optional deploy constructor, validate, execute in a discardable
sub-layer, the post-execution bound check with fee snapping, and the fee
transfer; any failure before the execute phase — and any fee-transfer
failure — returns the pre-attempt state unchanged. -/
def executeRaw (bc : BlockContext) (flags : ExecutionFlags)
    (tx : AccountTransaction) (s0 : CachedState) :
    Except String Receipt × CachedState :=
  let vc := bc.vc
  if isDuplicateDeclare tx s0 then (.error "class already declared", s0)
  else
    let budget := execBudget bc flags tx
    let s1 := bumpNonce s0 tx.sender
    let deployRes : Except String CachedState :=
      match tx.kind with
      | .deployAccount ch addr ctor_ok =>
        if ctor_ok then .ok (s1.writeClassHash addr ch)
        else .error "constructor failed"
      | _ => .ok s1
    match deployRes with
    | .error e => (.error e, s0)
    | .ok s2 =>
      if flags.validate && !tx.validate_ok then (.error "validate failed", s0)
      else if flags.validate && decide (min vc.validate_max_n_steps budget < tx.validate_steps) then
        (.error "no remaining steps", s0)
      else
        let vsteps := if flags.validate then tx.validate_steps else 0
        let snapshot := s2.writes
        let execRes : CachedState × Nat × Option String :=
          match tx.kind with
          | .invoke call => runCall call budget s2
          | .declare ch => (s2.declareClass ch, declareSteps, none)
          | .deployAccount _ _ _ => (s2, 0, none)
        let s3 := execRes.1
        let esteps := execRes.2.1
        match execRes.2.2 with
        | some e =>
          if tx.version = .v0 then (.error e, s0)
          else
            let s4 : CachedState := { s3 with writes := snapshot }
            let r : ComputationResources := { vm_steps := vsteps, n_reverted_steps := esteps }
            let parts := receiptParts bc tx s4 r
            let exceeded :=
              if flags.charge_fee then boundsExceeded tx parts.2.1 parts.2.2 else none
            let fee1 := if exceeded.isSome then tx.max_possible_fee else parts.2.2
            chargeAndFinish bc flags tx s0 s4 r (some e) parts.1 parts.2.1 fee1
        | none =>
          let r : ComputationResources := { vm_steps := vsteps + esteps, n_reverted_steps := 0 }
          let parts := receiptParts bc tx s3 r
          let exceeded :=
            if flags.charge_fee then boundsExceeded tx parts.2.1 parts.2.2 else none
          match exceeded with
          | some e1 =>
            let s4 : CachedState := { s3 with writes := snapshot }
            let r1 : ComputationResources := { vm_steps := vsteps, n_reverted_steps := esteps }
            let parts1 := receiptParts bc tx s4 r1
            chargeAndFinish bc flags tx s0 s4 r1 (some e1) parts1.1 parts1.2.1
              tx.max_possible_fee
          | none => chargeAndFinish bc flags tx s0 s3 r none parts.1 parts.2.1 parts.2.2

/-- Default cost constants for the test context: one step costs 1/400 L1 gas
(so 400 steps per L1 gas) and 100 L2 gas; generous block step ceilings. -/
def defaultConstants : VersionedConstants :=
  { step_cost_num := 1, step_cost_den := 400, step_gas_cost := 100,
    invoke_tx_max_n_steps := 10000000, validate_max_n_steps := 1000000,
    max_recursion_depth := 50,
    da_storage_update_cost := 32, da_contract_update_cost := 64 }

/-- Default block context for the test scenarios. -/
def defaultBlockContext : BlockContext :=
  { vc := defaultConstants,
    eth_prices := { l1_gas_price := 10, l2_gas_price := 1, l1_data_gas_price := 3 },
    strk_prices := { l1_gas_price := 20, l2_gas_price := 2, l1_data_gas_price := 6 },
    sequencer_address := 7,
    eth_fee_token := 1001, strk_fee_token := 1002 }

/-- A fresh test state: one funded account (both fee tokens), empty caches,
zero everywhere else. -/
def initialState (acct : Nat) (bal : Nat) : CachedState :=
  { base_storage := fun k =>
      if (k.1 = 1001 ∨ k.1 = 1002) ∧ k.2 = balanceKeyLow acct then bal else 0,
    base_nonce := fun _ => 0,
    base_class_hash := fun _ => 0,
    base_declared := fun _ => false,
    initial_reads := StateMaps.empty,
    writes := StateMaps.empty }

/-- Standard execution flags: charge the fee, validate, sequential mode. -/
def sequentialFlags : ExecutionFlags :=
  { charge_fee := true, validate := true, concurrency_mode := false }

/-- Concurrency-mode execution flags. -/
def concurrencyFlags : ExecutionFlags :=
  { charge_fee := true, validate := true, concurrency_mode := true }

/-- Default all-resources bounds, large enough not to bind in the default
context. -/
def default_all_resource_bounds : ValidResourceBounds :=
  .allResources
    { l1_gas := { max_amount := 1000000, max_price_per_unit := 20 },
      l2_gas := { max_amount := 100000000, max_price_per_unit := 2 },
      l1_data_gas := { max_amount := 1000000, max_price_per_unit := 6 } }

/-- Default L1-gas-only bounds, large enough not to bind in the default
context. -/
def default_l1_resource_bounds : ValidResourceBounds :=
  .l1Gas { max_amount := 100000, max_price_per_unit := 20 }

/-! Lemma library: association-list lookups and layer observers. -/

theorem lookup_filter_ne {α β : Type} [BEq α] [LawfulBEq α]
    (l : List (α × β)) (k k' : α) (h : (k' == k) = false) :
    (l.filter (fun p => p.1 != k)).lookup k' = l.lookup k' := by
  induction l with
  | nil => rfl
  | cons a l ih =>
    simp only [bne] at ih ⊢
    by_cases ha : (a.1 == k) = true
    · have hk : a.1 = k := eq_of_beq ha
      have hka : (k' == a.1) = false := by
        subst hk; exact h
      simp [List.filter, List.lookup, ha, hka, ih]
    · have ha' : (a.1 == k) = false := by simpa using ha
      by_cases hk' : (k' == a.1) = true
      · simp [List.filter, List.lookup, ha', hk']
      · have hk'' : (k' == a.1) = false := by simpa using hk'
        simp [List.filter, List.lookup, ha', hk'', ih]

theorem lookup_upsert {α β : Type} [BEq α] [LawfulBEq α]
    (l : List (α × β)) (k k' : α) (v : β) :
    (upsert l k v).lookup k' = if k' == k then some v else l.lookup k' := by
  unfold upsert
  by_cases h : (k' == k) = true
  · simp [List.lookup, h]
  · have h' : (k' == k) = false := by simpa using h
    simp [List.lookup, h', lookup_filter_ne]

theorem storageAt_writeStorage (s : CachedState) (k k' : Nat × Nat) (v : Nat) :
    (s.writeStorage k v).storageAt k' = if k' = k then v else s.storageAt k' := by
  unfold CachedState.writeStorage CachedState.storageAt
  simp only [lookup_upsert]
  by_cases h : k' = k
  · simp [h]
  · have h' : (k' == k) = false := by simpa using h
    simp [h, h']

theorem nonceAt_writeStorage (s : CachedState) (k : Nat × Nat) (v : Nat)
    (a : Nat) : (s.writeStorage k v).nonceAt a = s.nonceAt a := rfl

theorem classHashAt_writeStorage (s : CachedState) (k : Nat × Nat) (v : Nat)
    (a : Nat) : (s.writeStorage k v).classHashAt a = s.classHashAt a := rfl

theorem readStorage_fst (s : CachedState) (k : Nat × Nat) :
    (s.readStorage k).1 = s.storageAt k := by
  unfold CachedState.readStorage CachedState.storageAt
  cases h1 : s.writes.storage.lookup k <;>
    cases h2 : s.initial_reads.storage.lookup k <;> simp [h1, h2]

theorem storageAt_readStorage (s : CachedState) (k k' : Nat × Nat) :
    (s.readStorage k).2.storageAt k' = s.storageAt k' := by
  unfold CachedState.readStorage CachedState.storageAt
  cases h1 : s.writes.storage.lookup k
  · cases h2 : s.initial_reads.storage.lookup k
    · simp only [h1, h2, List.lookup]
      by_cases hk : k' = k
      · subst hk; simp [h1, h2]
      · have hk' : (k' == k) = false := by simpa using hk
        simp [hk']
    · simp [h1, h2]
  · simp [h1]

theorem nonceAt_readStorage (s : CachedState) (k : Nat × Nat) (a : Nat) :
    (s.readStorage k).2.nonceAt a = s.nonceAt a := by
  unfold CachedState.readStorage CachedState.nonceAt
  cases h1 : s.writes.storage.lookup k
  · cases h2 : s.initial_reads.storage.lookup k <;> simp [h1, h2]
  · simp [h1]

theorem writes_readStorage (s : CachedState) (k : Nat × Nat) :
    (s.readStorage k).2.writes = s.writes := by
  unfold CachedState.readStorage
  cases h1 : s.writes.storage.lookup k
  · cases h2 : s.initial_reads.storage.lookup k <;> simp [h1, h2]
  · simp [h1]

theorem initialReads_storage_readStorage_ne (s : CachedState) (k k' : Nat × Nat)
    (h : k' ≠ k) :
    (s.readStorage k).2.initial_reads.storage.lookup k'
      = s.initial_reads.storage.lookup k' := by
  unfold CachedState.readStorage
  cases h1 : s.writes.storage.lookup k
  · cases h2 : s.initial_reads.storage.lookup k
    · have hk' : (k' == k) = false := by simpa using h
      simp [h1, h2, List.lookup, hk']
    · simp [h1, h2]
  · simp [h1]

theorem initialReads_storage_writeStorage (s : CachedState) (k k' : Nat × Nat)
    (v : Nat) :
    (s.writeStorage k v).initial_reads.storage.lookup k'
      = s.initial_reads.storage.lookup k' := rfl

theorem writes_storage_writeStorage_ne (s : CachedState) (k k' : Nat × Nat)
    (v : Nat) (h : k' ≠ k) :
    (s.writeStorage k v).writes.storage.lookup k'
      = s.writes.storage.lookup k' := by
  unfold CachedState.writeStorage
  have hk' : (k' == k) = false := by simpa using h
  simp [lookup_upsert, hk']

theorem nonceAt_writeNonce (s : CachedState) (a a' : Nat) (v : Nat) :
    (s.writeNonce a v).nonceAt a' = if a' = a then v else s.nonceAt a' := by
  unfold CachedState.writeNonce CachedState.nonceAt
  simp only [lookup_upsert]
  by_cases h : a' = a
  · simp [h]
  · have h' : (a' == a) = false := by simpa using h
    simp [h, h']

theorem storageAt_writeNonce (s : CachedState) (a : Nat) (v : Nat)
    (k : Nat × Nat) : (s.writeNonce a v).storageAt k = s.storageAt k := rfl

theorem classHashAt_writeNonce (s : CachedState) (a : Nat) (v : Nat)
    (a' : Nat) : (s.writeNonce a v).classHashAt a' = s.classHashAt a' := rfl

theorem readNonce_fst (s : CachedState) (a : Nat) :
    (s.readNonce a).1 = s.nonceAt a := by
  unfold CachedState.readNonce CachedState.nonceAt
  cases h1 : s.writes.nonces.lookup a <;>
    cases h2 : s.initial_reads.nonces.lookup a <;> simp [h1, h2]

theorem nonceAt_readNonce (s : CachedState) (a a' : Nat) :
    (s.readNonce a).2.nonceAt a' = s.nonceAt a' := by
  unfold CachedState.readNonce CachedState.nonceAt
  cases h1 : s.writes.nonces.lookup a
  · cases h2 : s.initial_reads.nonces.lookup a
    · simp only [h1, h2, List.lookup]
      by_cases ha : a' = a
      · subst ha; simp [h1, h2]
      · have ha' : (a' == a) = false := by simpa using ha
        simp [ha']
    · simp [h1, h2]
  · simp [h1]

theorem storageAt_readNonce (s : CachedState) (a : Nat) (k : Nat × Nat) :
    (s.readNonce a).2.storageAt k = s.storageAt k := by
  unfold CachedState.readNonce CachedState.storageAt
  cases h1 : s.writes.nonces.lookup a
  · cases h2 : s.initial_reads.nonces.lookup a <;> simp [h1, h2]
  · simp [h1]

theorem writes_readNonce (s : CachedState) (a : Nat) :
    (s.readNonce a).2.writes = s.writes := by
  unfold CachedState.readNonce
  cases h1 : s.writes.nonces.lookup a
  · cases h2 : s.initial_reads.nonces.lookup a <;> simp [h1, h2]
  · simp [h1]

theorem initialReads_storage_readNonce (s : CachedState) (a : Nat)
    (k : Nat × Nat) :
    (s.readNonce a).2.initial_reads.storage.lookup k
      = s.initial_reads.storage.lookup k := by
  unfold CachedState.readNonce
  cases h1 : s.writes.nonces.lookup a
  · cases h2 : s.initial_reads.nonces.lookup a <;> simp [h1, h2]
  · simp [h1]

theorem nonceAt_bumpNonce (s : CachedState) (a a' : Nat) :
    (bumpNonce s a).nonceAt a' =
      if a' = a then s.nonceAt a + 1 else s.nonceAt a' := by
  unfold bumpNonce
  rw [nonceAt_writeNonce]
  by_cases h : a' = a
  · simp [h, readNonce_fst]
  · simp [h, nonceAt_readNonce]

theorem storageAt_bumpNonce (s : CachedState) (a : Nat) (k : Nat × Nat) :
    (bumpNonce s a).storageAt k = s.storageAt k := by
  unfold bumpNonce
  rw [storageAt_writeNonce, storageAt_readNonce]

theorem initialReads_storage_bumpNonce (s : CachedState) (a : Nat)
    (k : Nat × Nat) :
    (bumpNonce s a).initial_reads.storage.lookup k
      = s.initial_reads.storage.lookup k := by
  unfold bumpNonce
  have : (s.readNonce a).2.writeNonce ((s.readNonce a).1 + 1) =
      (s.readNonce a).2.writeNonce ((s.readNonce a).1 + 1) := rfl
  rw [show ((s.readNonce a).2.writeNonce a ((s.readNonce a).1 + 1)).initial_reads
      = (s.readNonce a).2.initial_reads from rfl]
  exact initialReads_storage_readNonce s a k

theorem writes_storage_bumpNonce (s : CachedState) (a : Nat)
    (k : Nat × Nat) :
    (bumpNonce s a).writes.storage.lookup k
      = s.writes.storage.lookup k := by
  unfold bumpNonce
  rw [show ((s.readNonce a).2.writeNonce a ((s.readNonce a).1 + 1)).writes.storage
      = (s.readNonce a).2.writes.storage from rfl]
  rw [writes_readNonce]

/-! Pipeline-stage lemmas. -/

theorem executeRaw_invoke_revert (bc : BlockContext) (flags : ExecutionFlags)
    (tx : AccountTransaction) (s0 : CachedState) (call : CallSpec)
    (s3 : CachedState) (esteps : Nat) (e : String)
    (hkind : tx.kind = .invoke call)
    (hvok : tx.validate_ok = true)
    (hval : flags.validate = true)
    (hvst : tx.validate_steps ≤ min bc.vc.validate_max_n_steps (execBudget bc flags tx))
    (hv0 : tx.version ≠ .v0)
    (hrun : runCall call (execBudget bc flags tx) (bumpNonce s0 tx.sender)
      = (s3, esteps, some e)) :
    executeRaw bc flags tx s0 =
      (let s4 : CachedState := { s3 with writes := (bumpNonce s0 tx.sender).writes }
       let r : ComputationResources :=
         { vm_steps := tx.validate_steps, n_reverted_steps := esteps }
       let parts := receiptParts bc tx s4 r
       let exceeded := if flags.charge_fee then boundsExceeded tx parts.2.1 parts.2.2 else none
       let fee1 := if exceeded.isSome then tx.max_possible_fee else parts.2.2
       chargeAndFinish bc flags tx s0 s4 r (some e) parts.1 parts.2.1 fee1) := by
  have hnotlt : ¬ (min bc.vc.validate_max_n_steps (execBudget bc flags tx) < tx.validate_steps) :=
    Nat.not_lt.mpr hvst
  unfold executeRaw
  simp only [isDuplicateDeclare, hkind, hval, hvok, Bool.not_true, Bool.and_false,
    Bool.false_and, Bool.and_true, if_false, Bool.true_and, decide_eq_false hnotlt,
    if_true, hrun, if_neg hv0]
  simp [Bool.false_eq_true]

theorem chargeAndFinish_fst_ok (bc : BlockContext) (flags : ExecutionFlags)
    (tx : AccountTransaction) (s0 sF : CachedState) (r : ComputationResources)
    (rerr : Option String) (da : Nat) (gas : GasVector) (fee : Nat)
    (hbal : fee ≤ sF.storageAt (bc.fee_token tx.fee_type, balanceKeyLow tx.sender)) :
    (chargeAndFinish bc flags tx s0 sF r rerr da gas fee).1 =
      .ok { fee := fee, gas := gas, da_gas := da, resources := r, revert_error := rerr } := by
  unfold chargeAndFinish
  by_cases hcf : flags.charge_fee
  · simp only [hcf, if_true, readStorage_fst]
    rw [if_neg (Nat.not_lt.mpr hbal)]
    split <;> rfl
  · simp [hcf]

theorem chargeAndFinish_fst_err (bc : BlockContext) (flags : ExecutionFlags)
    (tx : AccountTransaction) (s0 sF : CachedState) (r : ComputationResources)
    (rerr : Option String) (da : Nat) (gas : GasVector) (fee : Nat)
    (hcf : flags.charge_fee = true)
    (hbal : sF.storageAt (bc.fee_token tx.fee_type, balanceKeyLow tx.sender) < fee) :
    chargeAndFinish bc flags tx s0 sF r rerr da gas fee =
      (.error "insufficient balance to cover fee", s0) := by
  unfold chargeAndFinish
  simp only [hcf, if_true, readStorage_fst]
  rw [if_pos hbal]


theorem chargeAndFinish_balances_seq (bc : BlockContext) (flags : ExecutionFlags)
    (tx : AccountTransaction) (s0 sF : CachedState) (r : ComputationResources)
    (rerr : Option String) (da : Nat) (gas : GasVector) (fee : Nat)
    (hcf : flags.charge_fee = true) (hcm : flags.concurrency_mode = false)
    (hbal : fee ≤ sF.storageAt (bc.fee_token tx.fee_type, balanceKeyLow tx.sender))
    (hne : tx.sender ≠ bc.sequencer_address) :
    (chargeAndFinish bc flags tx s0 sF r rerr da gas fee).2.storageAt
        (bc.fee_token tx.fee_type, balanceKeyLow tx.sender)
      = sF.storageAt (bc.fee_token tx.fee_type, balanceKeyLow tx.sender) - fee
    ∧ (chargeAndFinish bc flags tx s0 sF r rerr da gas fee).2.storageAt
        (bc.fee_token tx.fee_type, balanceKeyLow bc.sequencer_address)
      = sF.storageAt (bc.fee_token tx.fee_type, balanceKeyLow bc.sequencer_address) + fee
    ∧ (∀ a, (chargeAndFinish bc flags tx s0 sF r rerr da gas fee).2.nonceAt a = sF.nonceAt a)
    ∧ (∀ k : Nat × Nat, k.1 ≠ bc.fee_token tx.fee_type →
        (chargeAndFinish bc flags tx s0 sF r rerr da gas fee).2.storageAt k = sF.storageAt k) := by
  set token := bc.fee_token tx.fee_type with htok
  have hLL : (token, balanceKeyLow tx.sender) ≠ (token, balanceKeyLow bc.sequencer_address) := by
    simp only [ne_eq, Prod.mk.injEq, balanceKeyLow, true_and]; omega
  have hLH : (token, balanceKeyLow tx.sender) ≠ (token, balanceKeyHigh tx.sender) := by
    simp only [ne_eq, Prod.mk.injEq, balanceKeyLow, balanceKeyHigh, true_and]; omega
  have hLHq : (token, balanceKeyLow tx.sender) ≠ (token, balanceKeyHigh bc.sequencer_address) := by
    simp only [ne_eq, Prod.mk.injEq, balanceKeyLow, balanceKeyHigh, true_and]; omega
  have hQLH : (token, balanceKeyLow bc.sequencer_address) ≠ (token, balanceKeyHigh tx.sender) := by
    simp only [ne_eq, Prod.mk.injEq, balanceKeyLow, balanceKeyHigh, true_and]; omega
  have hQLQH : (token, balanceKeyLow bc.sequencer_address) ≠ (token, balanceKeyHigh bc.sequencer_address) := by
    simp only [ne_eq, Prod.mk.injEq, balanceKeyLow, balanceKeyHigh, true_and]; omega
  unfold chargeAndFinish
  simp only [hcf, if_true, hcm, Bool.false_and, readStorage_fst]
  rw [if_neg (Nat.not_lt.mpr hbal)]
  simp only [Bool.false_eq_true, if_false]
  refine ⟨?_, ?_, ?_, ?_⟩
  · simp [storageAt_writeStorage, storageAt_readStorage, hLL, hLH, hLHq, hQLH, hQLQH,
      Ne.symm hLL, Ne.symm hLH, Ne.symm hLHq, Ne.symm hQLH, Ne.symm hQLQH]
  · simp [storageAt_writeStorage, storageAt_readStorage, readStorage_fst, hLL, hLH, hLHq, hQLH, hQLQH,
      Ne.symm hLL, Ne.symm hLH, Ne.symm hLHq, Ne.symm hQLH, Ne.symm hQLQH]
  · intro a
    simp [nonceAt_writeStorage, nonceAt_readStorage]
  · intro k hk
    have h1 : k ≠ (token, balanceKeyLow tx.sender) := by
      intro hc; exact hk (by rw [hc])
    have h2 : k ≠ (token, balanceKeyHigh tx.sender) := by
      intro hc; exact hk (by rw [hc])
    have h3 : k ≠ (token, balanceKeyLow bc.sequencer_address) := by
      intro hc; exact hk (by rw [hc])
    have h4 : k ≠ (token, balanceKeyHigh bc.sequencer_address) := by
      intro hc; exact hk (by rw [hc])
    simp [storageAt_writeStorage, storageAt_readStorage, h1, h2, h3, h4]

/-! Claim theorems. -/

/-- C1: an account transaction whose execute phase fails after a successful
validate, with reverts enabled (version other than v0), bumps the sender's
nonce by exactly 1, deducts the reported fee from the sender's fee-token
balance, carries a present revert_error in its receipt, and every storage
write made during the reverted execute phase is absent from the final state
(here: all storage outside the fee-token contract is unchanged, in
particular the cell written by the reverted call). -/

theorem claim_C1_revert_invoke (bc : BlockContext) (flags : ExecutionFlags)
    (tx : AccountTransaction) (s0 : CachedState) (t key val : Nat)
    (hkind : tx.kind = .invoke (.writeAndRevert t key val))
    (hvok : tx.validate_ok = true)
    (hval : flags.validate = true) (hcf : flags.charge_fee = true)
    (hcm : flags.concurrency_mode = false)
    (hv0 : tx.version ≠ .v0)
    (hvst : tx.validate_steps ≤ min bc.vc.validate_max_n_steps (execBudget bc flags tx))
    (hsteps : writeAndRevertSteps ≤ execBudget bc flags tx)
    (hne : tx.sender ≠ bc.sequencer_address) :
    let token := bc.fee_token tx.fee_type
    let sb := bumpNonce s0 tx.sender
    let r : ComputationResources :=
      { vm_steps := tx.validate_steps, n_reverted_steps := writeAndRevertSteps }
    let parts := receiptParts bc tx sb r
    let fee1 := if (boundsExceeded tx parts.2.1 parts.2.2).isSome
      then tx.max_possible_fee else parts.2.2
    fee1 ≤ s0.storageAt (token, balanceKeyLow tx.sender) →
    (executeRaw bc flags tx s0).1 =
        .ok { fee := fee1, gas := parts.2.1, da_gas := parts.1, resources := r,
              revert_error := some "execution failed" }
      ∧ (executeRaw bc flags tx s0).2.nonceAt tx.sender = s0.nonceAt tx.sender + 1
      ∧ (executeRaw bc flags tx s0).2.storageAt (token, balanceKeyLow tx.sender)
          = s0.storageAt (token, balanceKeyLow tx.sender) - fee1
      ∧ (∀ k : Nat × Nat, k.1 ≠ token →
          (executeRaw bc flags tx s0).2.storageAt k = s0.storageAt k) := by
  intro token sb r parts fee1 hbal
  have hrun : runCall (.writeAndRevert t key val)
      (execBudget bc flags tx) (bumpNonce s0 tx.sender)
      = ((bumpNonce s0 tx.sender).writeStorage (t, key) val, writeAndRevertSteps,
          some "execution failed") := by
    simp only [runCall]
    rw [if_pos hsteps]
  have hmain := executeRaw_invoke_revert bc flags tx s0 (.writeAndRevert t key val)
    ((bumpNonce s0 tx.sender).writeStorage (t, key) val) writeAndRevertSteps
    "execution failed" hkind hvok hval hvst hv0 hrun
  have hs4 : ({ (bumpNonce s0 tx.sender).writeStorage (t, key) val with
      writes := (bumpNonce s0 tx.sender).writes } : CachedState) = bumpNonce s0 tx.sender := rfl
  rw [hs4] at hmain
  rw [hmain]
  simp only [hcf, if_true]
  have hbal' : fee1 ≤ (bumpNonce s0 tx.sender).storageAt (token, balanceKeyLow tx.sender) := by
    rw [storageAt_bumpNonce]; exact hbal
  have hok := chargeAndFinish_fst_ok bc flags tx s0 (bumpNonce s0 tx.sender) r
    (some "execution failed") parts.1 parts.2.1 fee1 hbal'
  have hbl := chargeAndFinish_balances_seq bc flags tx s0 (bumpNonce s0 tx.sender) r
    (some "execution failed") parts.1 parts.2.1 fee1 hcf hcm hbal' hne
  refine ⟨hok, ?_, ?_, ?_⟩
  · rw [hbl.2.2.1 tx.sender, nonceAt_bumpNonce]
    simp
  · rw [hbl.1, storageAt_bumpNonce]
  · intro k hk
    rw [hbl.2.2.2 k hk, storageAt_bumpNonce]

/-- Concrete write-and-revert invoke transaction used as witness input. -/
def c1tx : AccountTransaction :=
  { sender := 5, version := .v1, max_fee := 100000,
    resource_bounds := default_all_resource_bounds,
    validate_ok := true, validate_steps := 400,
    kind := .invoke (.writeAndRevert 99 9 99) }

/-- Witness for C1 at a concrete funded account and block context. -/
theorem claim_C1_witness :
    (executeRaw defaultBlockContext sequentialFlags c1tx (initialState 5 1000000)).1
      = .ok { fee := 318, gas := { l1_gas := 3, l2_gas := 0, l1_data_gas := 96 },
              da_gas := 96, resources := { vm_steps := 400, n_reverted_steps := 700 },
              revert_error := some "execution failed" }
    ∧ (executeRaw defaultBlockContext sequentialFlags c1tx (initialState 5 1000000)).2.nonceAt 5 = 1
    ∧ (executeRaw defaultBlockContext sequentialFlags c1tx
        (initialState 5 1000000)).2.storageAt (1001, balanceKeyLow 5) = 999682
    ∧ (executeRaw defaultBlockContext sequentialFlags c1tx
        (initialState 5 1000000)).2.storageAt (99, 9) = 0 := by
  have h := claim_C1_revert_invoke defaultBlockContext sequentialFlags c1tx (initialState 5 1000000)
    99 9 99 rfl rfl rfl rfl rfl (by decide) (by decide) (by decide) (by decide) (by decide)
  refine ⟨h.1.trans (congrArg Except.ok (by decide)), h.2.1.trans (by decide), (h.2.2.1).trans (by decide), ?_⟩
  exact (h.2.2.2 (99, 9) (by decide)).trans (by decide)

/-- C2: a transaction whose validate phase fails (authorization rejection,
deploy-account constructor failure, declare of an already-declared class,
or validate step exhaustion) leaves the post-attempt state identical to the
pre-attempt state: nonce, fee-token balance and class hash are unchanged; no
fee is charged and no nonce is bumped. -/

theorem claim_C2_validate_failure_zero_effect (bc : BlockContext)
    (flags : ExecutionFlags) (tx : AccountTransaction) (s0 : CachedState)
    (hfail : (flags.validate = true ∧ tx.validate_ok = false)
      ∨ (∃ ch addr, tx.kind = .deployAccount ch addr false)
      ∨ (∃ ch, tx.kind = .declare ch ∧ s0.isDeclared ch = true)
      ∨ (flags.validate = true
          ∧ min bc.vc.validate_max_n_steps (execBudget bc flags tx) < tx.validate_steps)) :
    (∃ e, executeRaw bc flags tx s0 = (.error e, s0))
    ∧ (executeRaw bc flags tx s0).2.nonceAt tx.sender = s0.nonceAt tx.sender
    ∧ (∀ token a, (executeRaw bc flags tx s0).2.feeTokenBalance token a
        = s0.feeTokenBalance token a)
    ∧ (∀ a, (executeRaw bc flags tx s0).2.classHashAt a = s0.classHashAt a) := by
  have herr : ∃ e, executeRaw bc flags tx s0 = (.error e, s0) := by
    by_cases hdup : isDuplicateDeclare tx s0 = true
    · exact ⟨"class already declared", by unfold executeRaw; rw [if_pos hdup]⟩
    · rcases hfail with ⟨hv, hok⟩ | ⟨ch, addr, hk⟩ | ⟨ch, hk, hdecl⟩ | ⟨hv, hlt⟩
      · cases hk : tx.kind with
        | invoke call =>
          exact ⟨"validate failed", by
            unfold executeRaw
            rw [if_neg hdup]
            simp only [hk, hv, hok, Bool.not_false, Bool.and_true, if_true]⟩
        | declare ch =>
          exact ⟨"validate failed", by
            unfold executeRaw
            rw [if_neg hdup]
            simp only [hk, hv, hok, Bool.not_false, Bool.and_true, if_true]⟩
        | deployAccount ch addr ok =>
          cases ok with
          | true =>
            exact ⟨"validate failed", by
              unfold executeRaw
              rw [if_neg hdup]
              simp only [hk, hv, hok, Bool.not_false, Bool.and_true, if_true]⟩
          | false =>
            exact ⟨"constructor failed", by
              unfold executeRaw
              rw [if_neg hdup]
              simp only [hk, if_false, Bool.false_eq_true]⟩
      · exact ⟨"constructor failed", by
          unfold executeRaw
          rw [if_neg hdup]
          simp only [hk, if_false, Bool.false_eq_true]⟩
      · exact absurd (by simp [isDuplicateDeclare, hk, hdecl]) hdup
      · by_cases hok : tx.validate_ok = true
        · cases hk : tx.kind with
          | invoke call =>
            exact ⟨"no remaining steps", by
              unfold executeRaw
              rw [if_neg hdup]
              simp only [hk, hv, hok, Bool.not_true, Bool.and_false, Bool.false_eq_true,
                if_false, decide_eq_true hlt, Bool.and_true, if_true]⟩
          | declare ch =>
            exact ⟨"no remaining steps", by
              unfold executeRaw
              rw [if_neg hdup]
              simp only [hk, hv, hok, Bool.not_true, Bool.and_false, Bool.false_eq_true,
                if_false, decide_eq_true hlt, Bool.and_true, if_true]⟩
          | deployAccount ch addr ok =>
            cases ok with
            | true =>
              exact ⟨"no remaining steps", by
                unfold executeRaw
                rw [if_neg hdup]
                simp only [hk, hv, hok, Bool.not_true, Bool.and_false, Bool.false_eq_true,
                  if_false, decide_eq_true hlt, Bool.and_true, if_true]⟩
            | false =>
              exact ⟨"constructor failed", by
                unfold executeRaw
                rw [if_neg hdup]
                simp only [hk, if_false, Bool.false_eq_true]⟩
        · have hok' : tx.validate_ok = false := by simpa using hok
          cases hk : tx.kind with
          | invoke call =>
            exact ⟨"validate failed", by
              unfold executeRaw
              rw [if_neg hdup]
              simp only [hk, hv, hok', Bool.not_false, Bool.and_true, if_true]⟩
          | declare ch =>
            exact ⟨"validate failed", by
              unfold executeRaw
              rw [if_neg hdup]
              simp only [hk, hv, hok', Bool.not_false, Bool.and_true, if_true]⟩
          | deployAccount ch addr ok =>
            cases ok with
            | true =>
              exact ⟨"validate failed", by
                unfold executeRaw
                rw [if_neg hdup]
                simp only [hk, hv, hok', Bool.not_false, Bool.and_true, if_true]⟩
            | false =>
              exact ⟨"constructor failed", by
                unfold executeRaw
                rw [if_neg hdup]
                simp only [hk, if_false, Bool.false_eq_true]⟩
  obtain ⟨e, he⟩ := herr
  refine ⟨⟨e, he⟩, ?_, ?_, ?_⟩
  · rw [he]
  · intro token a; rw [he]
  · intro a; rw [he]

/-- Concrete failing deploy-account transaction (validate rejects) used as
witness input. -/
def c2tx : AccountTransaction :=
  { sender := 23, version := .v3, max_fee := 0,
    resource_bounds := default_l1_resource_bounds,
    validate_ok := false, validate_steps := 800,
    kind := .deployAccount 77 23 true }

/-- Witness for C2: the failing deploy-account leaves nonce, balance and
class hash untouched and surfaces an error. -/
theorem claim_C2_witness :
    (executeRaw defaultBlockContext sequentialFlags c2tx (initialState 23 2000000)).2.nonceAt 23 = 0
    ∧ (executeRaw defaultBlockContext sequentialFlags c2tx
        (initialState 23 2000000)).2.feeTokenBalance 1002 23 = (2000000, 0)
    ∧ (executeRaw defaultBlockContext sequentialFlags c2tx
        (initialState 23 2000000)).2.classHashAt 23 = 0
    ∧ (executeRaw defaultBlockContext sequentialFlags c2tx
        (initialState 23 2000000)).1.isOk = false := by
  have h := claim_C2_validate_failure_zero_effect defaultBlockContext sequentialFlags c2tx
    (initialState 23 2000000) (Or.inl ⟨rfl, rfl⟩)
  obtain ⟨e, he⟩ := h.1
  refine ⟨(h.2.1).trans (by decide), ?_, (h.2.2.2 23).trans (by decide), ?_⟩
  · exact (h.2.2.1 1002 23).trans (by decide)
  · rw [he]; rfl

theorem executeRaw_invoke_ok (bc : BlockContext) (flags : ExecutionFlags)
    (tx : AccountTransaction) (s0 : CachedState) (call : CallSpec)
    (s3 : CachedState) (esteps : Nat)
    (hkind : tx.kind = .invoke call)
    (hvok : tx.validate_ok = true)
    (hval : flags.validate = true)
    (hvst : tx.validate_steps ≤ min bc.vc.validate_max_n_steps (execBudget bc flags tx))
    (hrun : runCall call (execBudget bc flags tx) (bumpNonce s0 tx.sender)
      = (s3, esteps, none))
    (hexc : (if flags.charge_fee then
        boundsExceeded tx
          (receiptParts bc tx s3
            { vm_steps := tx.validate_steps + esteps, n_reverted_steps := 0 }).2.1
          (receiptParts bc tx s3
            { vm_steps := tx.validate_steps + esteps, n_reverted_steps := 0 }).2.2
      else none) = none) :
    executeRaw bc flags tx s0 =
      (let r : ComputationResources :=
        { vm_steps := tx.validate_steps + esteps, n_reverted_steps := 0 }
       let parts := receiptParts bc tx s3 r
       chargeAndFinish bc flags tx s0 s3 r none parts.1 parts.2.1 parts.2.2) := by
  have hnotlt : ¬ (min bc.vc.validate_max_n_steps (execBudget bc flags tx) < tx.validate_steps) :=
    Nat.not_lt.mpr hvst
  unfold executeRaw
  simp only [isDuplicateDeclare, hkind, hval, hvok, Bool.not_true, Bool.and_false,
    Bool.false_and, Bool.and_true, if_false, Bool.true_and, decide_eq_false hnotlt,
    if_true, hrun, Bool.false_eq_true]
  rw [hexc]

/-- Replacing a transaction's kind changes none of the fee-relevant views. -/
theorem receiptParts_kind (bc : BlockContext) (tx : AccountTransaction)
    (k : TxKind) (s : CachedState) (r : ComputationResources) :
    receiptParts bc { tx with kind := k } s r = receiptParts bc tx s r := rfl

theorem boundsExceeded_kind (tx : AccountTransaction) (k : TxKind)
    (g : GasVector) (f : Nat) :
    boundsExceeded { tx with kind := k } g f = boundsExceeded tx g f := rfl

theorem max_possible_fee_kind (tx : AccountTransaction) (k : TxKind) :
    AccountTransaction.max_possible_fee { tx with kind := k }
      = tx.max_possible_fee := rfl

theorem chargeAndFinish_kind (bc : BlockContext) (flags : ExecutionFlags)
    (tx : AccountTransaction) (k : TxKind) (s0 sF : CachedState)
    (r : ComputationResources) (rerr : Option String) (da : Nat)
    (gas : GasVector) (fee : Nat) :
    chargeAndFinish bc flags { tx with kind := k } s0 sF r rerr da gas fee
      = chargeAndFinish bc flags tx s0 sF r rerr da gas fee := rfl

theorem cachedState_writes_eta (s : CachedState) :
    ({ s with writes := s.writes } : CachedState) = s := rfl


/-- Replace a transaction's payload with a recursion of the given depth,
keeping every other field. -/
def withRecurse (tx : AccountTransaction) (d : Nat) : AccountTransaction :=
  { tx with kind := .invoke (.recurse d) }

/-! Ceiling-division facts used for legacy (NoL2Gas) fee pricing. -/

theorem ceilDiv_le_ceilDiv (a b c : Nat) (h : a ≤ b) :
    ceilDiv a c ≤ ceilDiv b c := by
  unfold ceilDiv
  exact Nat.div_le_div_right (by omega)

theorem ceilDiv_add_mul (a c d : Nat) (hd : 0 < d) :
    ceilDiv (a + c * d) d = ceilDiv a d + c := by
  unfold ceilDiv
  have hcomm : d * c = c * d := by ring
  have h1 : a + c * d + d - 1 = (a + d - 1) + d * c := by omega
  rw [h1, Nat.add_mul_div_left _ _ hd]

theorem ceilDiv_lt_ceilDiv (a b d : Nat) (hd : 0 < d) (h : a + d ≤ b) :
    ceilDiv a d < ceilDiv b d := by
  have h1 := ceilDiv_add_mul a 1 d hd
  have h2 : ceilDiv (a + d) d ≤ ceilDiv b d := ceilDiv_le_ceilDiv _ _ _ h
  simp only [one_mul] at h1
  omega

/-- C3: the charged step count and fee of a reverted transaction are a
strictly increasing, deterministic function of the work performed before
failure: a run that reverts on the step limit charges strictly more steps
and fee than a successful shorter run of the same call shape — under
all-resources pricing whenever steps carry a positive price, and under
legacy/L1-only (NoL2Gas) pricing whenever the step surplus amounts to at
least one L1 gas unit — and two transactions that fail at the identical
logical point (differing only in requested recursion depth beyond the
step-limit revert) produce byte-identical receipts and final states. -/
theorem claim_C3_reverted_charge_strict_and_deterministic
    (bc : BlockContext) (flags : ExecutionFlags) (tx : AccountTransaction)
    (s0 : CachedState) (ds d1 d2 : Nat)
    (hvok : tx.validate_ok = true)
    (hval : flags.validate = true) (hcf : flags.charge_fee = true)
    (hv0 : tx.version ≠ .v0)
    (hvst : tx.validate_steps ≤ min bc.vc.validate_max_n_steps (execBudget bc flags tx))
    (hsucc : recurseBaseSteps + recursePerCallSteps * ds
      < execBudget bc flags tx)
    (hfail1 : execBudget bc flags tx
      < recurseBaseSteps + recursePerCallSteps * d1)
    (hfail2 : execBudget bc flags tx
      < recurseBaseSteps + recursePerCallSteps * d2) :
    let B := execBudget bc flags tx
    let sb := bumpNonce s0 tx.sender
    let rS : ComputationResources :=
      { vm_steps := tx.validate_steps + (recurseBaseSteps + recursePerCallSteps * ds),
        n_reverted_steps := 0 }
    let rF : ComputationResources :=
      { vm_steps := tx.validate_steps, n_reverted_steps := B }
    let partsS := receiptParts bc tx sb rS
    let partsF := receiptParts bc tx sb rF
    boundsExceeded tx partsS.2.1 partsS.2.2 = none →
    boundsExceeded tx partsF.2.1 partsF.2.2 = none →
    partsS.2.2 ≤ s0.storageAt (bc.fee_token tx.fee_type, balanceKeyLow tx.sender) →
    partsF.2.2 ≤ s0.storageAt (bc.fee_token tx.fee_type, balanceKeyLow tx.sender) →
    executeRaw bc flags (withRecurse tx d1) s0 = executeRaw bc flags (withRecurse tx d2) s0
    ∧ (executeRaw bc flags (withRecurse tx d1) s0).1
        = .ok { fee := partsF.2.2, gas := partsF.2.1, da_gas := partsF.1,
                resources := rF, revert_error := some "no remaining steps" }
    ∧ (executeRaw bc flags (withRecurse tx ds) s0).1
        = .ok { fee := partsS.2.2, gas := partsS.2.1, da_gas := partsS.1,
                resources := rS, revert_error := none }
    ∧ rS.total_charged_steps < rF.total_charged_steps
    ∧ (tx.gasMode = .all → 0 < bc.vc.step_gas_cost →
        0 < (bc.prices tx.fee_type).l2_gas_price →
        partsS.2.2 < partsF.2.2)
    ∧ (tx.gasMode = .noL2Gas → 0 < bc.vc.step_cost_den →
        0 < (bc.prices tx.fee_type).l1_gas_price →
        rS.total_charged_steps * bc.vc.step_cost_num + bc.vc.step_cost_den
          ≤ rF.total_charged_steps * bc.vc.step_cost_num →
        partsS.2.2 < partsF.2.2) := by
  intro B sb rS rF partsS partsF hbS hbF hbalS hbalF
  have hvB : tx.validate_steps ≤ B := le_trans hvst (Nat.min_le_right _ _)
  -- the reverted runs at depths d1 and d2
  have hrun1 : runCall (.recurse d1) B sb
      = (sb, B, some "no remaining steps") := by
    simp only [runCall]
    rw [if_neg (Nat.not_le.mpr hfail1)]
  have hrun2 : runCall (.recurse d2) B sb
      = (sb, B, some "no remaining steps") := by
    simp only [runCall]
    rw [if_neg (Nat.not_le.mpr hfail2)]
  have hrunS : runCall (.recurse ds) B sb
      = (sb, recurseBaseSteps + recursePerCallSteps * ds, none) := by
    simp only [runCall]
    rw [if_pos (Nat.le_of_lt hsucc)]
  have h1 := executeRaw_invoke_revert bc flags (withRecurse tx d1) s0 (.recurse d1)
    sb B "no remaining steps" rfl hvok hval hvst hv0 hrun1
  have h2 := executeRaw_invoke_revert bc flags (withRecurse tx d2) s0 (.recurse d2)
    sb B "no remaining steps" rfl hvok hval hvst hv0 hrun2
  have hS := executeRaw_invoke_ok bc flags (withRecurse tx ds) s0 (.recurse ds)
    sb (recurseBaseSteps + recursePerCallSteps * ds) rfl hvok hval hvst hrunS
    (by rw [hcf, if_pos rfl]; exact hbS)
  have hbalF' : partsF.2.2 ≤ sb.storageAt (bc.fee_token tx.fee_type, balanceKeyLow tx.sender) := by
    rw [storageAt_bumpNonce]; exact hbalF
  have hbalS' : partsS.2.2 ≤ sb.storageAt (bc.fee_token tx.fee_type, balanceKeyLow tx.sender) := by
    rw [storageAt_bumpNonce]; exact hbalS
  refine ⟨?_, ?_, ?_, ?_, ?_, ?_⟩
  · rw [h1, h2]; rfl
  · rw [h1]
    simp only [withRecurse, hcf, if_true, cachedState_writes_eta, receiptParts_kind,
      boundsExceeded_kind, max_possible_fee_kind, chargeAndFinish_kind]
    rw [hbF]
    simp only [Option.isSome_none, Bool.false_eq_true, if_false]
    exact chargeAndFinish_fst_ok bc flags tx s0 sb rF (some "no remaining steps")
      partsF.1 partsF.2.1 partsF.2.2 hbalF'
  · rw [hS]
    simp only [withRecurse, cachedState_writes_eta, receiptParts_kind, chargeAndFinish_kind]
    exact chargeAndFinish_fst_ok bc flags tx s0 sb rS none
      partsS.1 partsS.2.1 partsS.2.2 hbalS'
  · simp only [ComputationResources.total_charged_steps, rS, rF]
    omega
  · intro hmode hsgc hp2
    show get_fee_by_gas_vector (bc.prices tx.fee_type)
        (gas_vector_of bc.vc tx.gasMode rS.total_charged_steps
          (daGasOf bc.vc (countForFeeCharge sb tx.sender (bc.fee_token tx.fee_type))))
      < get_fee_by_gas_vector (bc.prices tx.fee_type)
        (gas_vector_of bc.vc tx.gasMode rF.total_charged_steps
          (daGasOf bc.vc (countForFeeCharge sb tx.sender (bc.fee_token tx.fee_type))))
    rw [hmode]
    simp only [gas_vector_of, get_fee_by_gas_vector]
    have hlt : rS.total_charged_steps < rF.total_charged_steps := by
      simp only [ComputationResources.total_charged_steps, rS, rF]
      omega
    have h1 : rS.total_charged_steps * bc.vc.step_gas_cost
        < rF.total_charged_steps * bc.vc.step_gas_cost :=
      (Nat.mul_lt_mul_right hsgc).mpr hlt
    have h2 : rS.total_charged_steps * bc.vc.step_gas_cost * (bc.prices tx.fee_type).l2_gas_price
        < rF.total_charged_steps * bc.vc.step_gas_cost * (bc.prices tx.fee_type).l2_gas_price :=
      (Nat.mul_lt_mul_right hp2).mpr h1
    omega
  · intro hmode hden hp1 hgap
    show get_fee_by_gas_vector (bc.prices tx.fee_type)
        (gas_vector_of bc.vc tx.gasMode rS.total_charged_steps
          (daGasOf bc.vc (countForFeeCharge sb tx.sender (bc.fee_token tx.fee_type))))
      < get_fee_by_gas_vector (bc.prices tx.fee_type)
        (gas_vector_of bc.vc tx.gasMode rF.total_charged_steps
          (daGasOf bc.vc (countForFeeCharge sb tx.sender (bc.fee_token tx.fee_type))))
    rw [hmode]
    simp only [gas_vector_of, get_fee_by_gas_vector]
    have hlt := ceilDiv_lt_ceilDiv (rS.total_charged_steps * bc.vc.step_cost_num)
      (rF.total_charged_steps * bc.vc.step_cost_num) bc.vc.step_cost_den hden hgap
    have h2 := (Nat.mul_lt_mul_right hp1).mpr hlt
    omega

/-- Block context with a small invoke-step ceiling so the step limit binds. -/
def smallStepContext : BlockContext :=
  { defaultBlockContext with vc := { defaultConstants with invoke_tx_max_n_steps := 6000 } }

/-- Concrete v3 all-bounds recursion transaction used as witness input. -/
def c3tx : AccountTransaction :=
  { sender := 5, version := .v3, max_fee := 0,
    resource_bounds := default_all_resource_bounds,
    validate_ok := true, validate_steps := 400,
    kind := .invoke (.recurse 0) }

/-- Concrete v3 L1-only-bounds recursion transaction used as witness input. -/
def c3txL1 : AccountTransaction :=
  { c3tx with resource_bounds := default_l1_resource_bounds }

/-- Witness for C3, under both pricing modes (v3 all-bounds and v3 L1-only
bounds): depth 3 succeeds, depths 7 and 8 revert on the step limit with
byte-identical receipts and states, and the reverted run charges strictly
more fee than the successful run. -/
theorem claim_C3_witness :
    executeRaw smallStepContext sequentialFlags (withRecurse c3tx 7) (initialState 5 1000000000)
      = executeRaw smallStepContext sequentialFlags (withRecurse c3tx 8) (initialState 5 1000000000)
    ∧ (executeRaw smallStepContext sequentialFlags (withRecurse c3tx 7)
        (initialState 5 1000000000)).1
      = .ok { fee := 1280576, gas := { l1_gas := 0, l2_gas := 640000, l1_data_gas := 96 },
              da_gas := 96, resources := { vm_steps := 400, n_reverted_steps := 6000 },
              revert_error := some "no remaining steps" }
    ∧ (executeRaw smallStepContext sequentialFlags (withRecurse c3tx 3)
        (initialState 5 1000000000)).1
      = .ok { fee := 800576, gas := { l1_gas := 0, l2_gas := 400000, l1_data_gas := 96 },
              da_gas := 96, resources := { vm_steps := 4000, n_reverted_steps := 0 },
              revert_error := none }
    ∧ (receiptParts smallStepContext c3tx
          (bumpNonce (initialState 5 1000000000) c3tx.sender)
          { vm_steps := c3tx.validate_steps
              + (recurseBaseSteps + recursePerCallSteps * 3),
            n_reverted_steps := 0 }).2.2
      < (receiptParts smallStepContext c3tx
          (bumpNonce (initialState 5 1000000000) c3tx.sender)
          { vm_steps := c3tx.validate_steps,
            n_reverted_steps := execBudget smallStepContext sequentialFlags c3tx }).2.2
    ∧ executeRaw smallStepContext sequentialFlags (withRecurse c3txL1 7) (initialState 5 1000000000)
      = executeRaw smallStepContext sequentialFlags (withRecurse c3txL1 8) (initialState 5 1000000000)
    ∧ (executeRaw smallStepContext sequentialFlags (withRecurse c3txL1 7)
        (initialState 5 1000000000)).1
      = .ok { fee := 896, gas := { l1_gas := 16, l2_gas := 0, l1_data_gas := 96 },
              da_gas := 96, resources := { vm_steps := 400, n_reverted_steps := 6000 },
              revert_error := some "no remaining steps" }
    ∧ (executeRaw smallStepContext sequentialFlags (withRecurse c3txL1 3)
        (initialState 5 1000000000)).1
      = .ok { fee := 776, gas := { l1_gas := 10, l2_gas := 0, l1_data_gas := 96 },
              da_gas := 96, resources := { vm_steps := 4000, n_reverted_steps := 0 },
              revert_error := none }
    ∧ (receiptParts smallStepContext c3txL1
          (bumpNonce (initialState 5 1000000000) c3txL1.sender)
          { vm_steps := c3txL1.validate_steps
              + (recurseBaseSteps + recursePerCallSteps * 3),
            n_reverted_steps := 0 }).2.2
      < (receiptParts smallStepContext c3txL1
          (bumpNonce (initialState 5 1000000000) c3txL1.sender)
          { vm_steps := c3txL1.validate_steps,
            n_reverted_steps := execBudget smallStepContext sequentialFlags c3txL1 }).2.2 := by
  have h := claim_C3_reverted_charge_strict_and_deterministic smallStepContext sequentialFlags
    c3tx (initialState 5 1000000000) 3 7 8 rfl rfl rfl (by decide) (by decide)
    (by decide) (by decide) (by decide) (by decide) (by decide) (by decide) (by decide)
  have hL := claim_C3_reverted_charge_strict_and_deterministic smallStepContext sequentialFlags
    c3txL1 (initialState 5 1000000000) 3 7 8 rfl rfl rfl (by decide) (by decide)
    (by decide) (by decide) (by decide) (by decide) (by decide) (by decide) (by decide)
  exact ⟨h.1, h.2.1.trans (congrArg Except.ok (by decide)),
    h.2.2.1.trans (congrArg Except.ok (by decide)),
    h.2.2.2.2.1 rfl (by decide) (by decide),
    hL.1, hL.2.1.trans (congrArg Except.ok (by decide)),
    hL.2.2.1.trans (congrArg Except.ok (by decide)),
    hL.2.2.2.2.2 rfl (by decide) (by decide) (by decide)⟩


theorem executeRaw_deploy_ok (bc : BlockContext) (flags : ExecutionFlags)
    (tx : AccountTransaction) (s0 : CachedState) (ch addr : Nat)
    (hkind : tx.kind = .deployAccount ch addr true)
    (hvok : tx.validate_ok = true)
    (hval : flags.validate = true)
    (hvst : tx.validate_steps ≤ min bc.vc.validate_max_n_steps (execBudget bc flags tx))
    (hexc : (if flags.charge_fee then
        boundsExceeded tx
          (receiptParts bc tx ((bumpNonce s0 tx.sender).writeClassHash addr ch)
            { vm_steps := tx.validate_steps + 0, n_reverted_steps := 0 }).2.1
          (receiptParts bc tx ((bumpNonce s0 tx.sender).writeClassHash addr ch)
            { vm_steps := tx.validate_steps + 0, n_reverted_steps := 0 }).2.2
      else none) = none) :
    executeRaw bc flags tx s0 =
      (let s2 := (bumpNonce s0 tx.sender).writeClassHash addr ch
       let r : ComputationResources :=
         { vm_steps := tx.validate_steps + 0, n_reverted_steps := 0 }
       let parts := receiptParts bc tx s2 r
       chargeAndFinish bc flags tx s0 s2 r none parts.1 parts.2.1 parts.2.2) := by
  have hnotlt : ¬ (min bc.vc.validate_max_n_steps (execBudget bc flags tx) < tx.validate_steps) :=
    Nat.not_lt.mpr hvst
  unfold executeRaw
  simp only [isDuplicateDeclare, hkind, hval, hvok, Bool.not_true, Bool.and_false,
    Bool.false_and, Bool.and_true, if_false, Bool.true_and, decide_eq_false hnotlt,
    if_true, Bool.false_eq_true, if_true]
  rw [hexc]

/-- The resolved fee/resource bound total of a transaction: the max fee for
legacy versions, the sum of the bound amounts for v3. -/
def resolvedBoundsSum (tx : AccountTransaction) : Nat :=
  match tx.version with
  | .v0 => tx.max_fee
  | .v1 => tx.max_fee
  | .v3 => tx.resource_bounds.sumAmounts

/-- C4: fee enforcement is disabled exactly when the resolved fee/resource
bounds are all zero; and when the fee is charged (enforcement on) against an
account lacking the balance, execution fails deterministically with the
insufficient-balance error, while the same transaction without fee charging
runs to completion. -/
theorem claim_C4_fee_enforcement (bc : BlockContext) (flags : ExecutionFlags)
    (tx : AccountTransaction) (s0 : CachedState) (ch addr : Nat)
    (hkind : tx.kind = .deployAccount ch addr true)
    (hvok : tx.validate_ok = true)
    (hval : flags.validate = true) (hcf : flags.charge_fee = true)
    (hvst : tx.validate_steps ≤ min bc.vc.validate_max_n_steps (execBudget bc flags tx))
    (hvst0 : tx.validate_steps
      ≤ min bc.vc.validate_max_n_steps bc.vc.invoke_tx_max_n_steps) :
    let s2 := (bumpNonce s0 tx.sender).writeClassHash addr ch
    let r : ComputationResources :=
      { vm_steps := tx.validate_steps + 0, n_reverted_steps := 0 }
    let parts := receiptParts bc tx s2 r
    boundsExceeded tx parts.2.1 parts.2.2 = none →
    s0.storageAt (bc.fee_token tx.fee_type, balanceKeyLow tx.sender) < parts.2.2 →
    (tx.enforce_fee = false ↔ resolvedBoundsSum tx = 0)
    ∧ executeRaw bc flags tx s0 = (.error "insufficient balance to cover fee", s0)
    ∧ (executeRaw bc { flags with charge_fee := false } tx s0).1.isOk = true := by
  intro s2 r parts hexc hbal
  have hiff : tx.enforce_fee = false ↔ resolvedBoundsSum tx = 0 := by
    unfold AccountTransaction.enforce_fee resolvedBoundsSum
    cases tx.version <;> simp
  have hbal2 : s2.storageAt (bc.fee_token tx.fee_type, balanceKeyLow tx.sender) < parts.2.2 := by
    show ((bumpNonce s0 tx.sender).writeClassHash addr ch).storageAt _ < _
    rw [show ((bumpNonce s0 tx.sender).writeClassHash addr ch).storageAt
        (bc.fee_token tx.fee_type, balanceKeyLow tx.sender)
      = (bumpNonce s0 tx.sender).storageAt
        (bc.fee_token tx.fee_type, balanceKeyLow tx.sender) from rfl]
    rw [storageAt_bumpNonce]
    exact hbal
  refine ⟨hiff, ?_, ?_⟩
  · rw [executeRaw_deploy_ok bc flags tx s0 ch addr hkind hvok hval hvst
      (by rw [hcf, if_pos rfl]; exact hexc)]
    exact chargeAndFinish_fst_err bc flags tx s0 s2 r none parts.1 parts.2.1 parts.2.2 hcf hbal2
  · have hvst' : tx.validate_steps
        ≤ min bc.vc.validate_max_n_steps (execBudget bc { flags with charge_fee := false } tx) := by
      show tx.validate_steps ≤ min bc.vc.validate_max_n_steps (if false then _ else bc.vc.invoke_tx_max_n_steps)
      simpa using hvst0
    rw [executeRaw_deploy_ok bc { flags with charge_fee := false } tx s0 ch addr hkind hvok hval
      hvst' (by simp)]
    show (chargeAndFinish bc { flags with charge_fee := false } tx s0 s2 r none
      parts.1 parts.2.1 parts.2.2).1.isOk = true
    unfold chargeAndFinish
    simp [Except.isOk, Except.toBool]

/-- Concrete deploy-account transaction with nonzero L1 bounds and an
unfunded sender, used as witness input. -/
def c4tx : AccountTransaction :=
  { sender := 31, version := .v3, max_fee := 0,
    resource_bounds := default_l1_resource_bounds,
    validate_ok := true, validate_steps := 800,
    kind := .deployAccount 77 31 true }

/-- A copy of the witness transaction with all bound amounts zero. -/
def c4txZero : AccountTransaction :=
  { c4tx with resource_bounds := .l1Gas { max_amount := 0, max_price_per_unit := 20 } }

/-- Witness for C4: nonzero bounds enforce the fee and the unfunded account
fails deterministically at fee charge; with charging disabled the same
transaction succeeds; zero bounds disable enforcement. -/
theorem claim_C4_witness :
    c4tx.enforce_fee = true
    ∧ c4txZero.enforce_fee = false
    ∧ executeRaw defaultBlockContext sequentialFlags c4tx (initialState 99 500)
        = (.error "insufficient balance to cover fee", initialState 99 500)
    ∧ (executeRaw defaultBlockContext { sequentialFlags with charge_fee := false } c4tx
        (initialState 99 500)).1.isOk = true := by
  have h := claim_C4_fee_enforcement defaultBlockContext sequentialFlags c4tx
    (initialState 99 500) 77 31 rfl rfl rfl rfl (by decide) (by decide)
    (by decide) (by decide)
  exact ⟨by decide, by decide, h.2.1, h.2.2⟩


theorem executeRaw_invoke_postExceeded (bc : BlockContext) (flags : ExecutionFlags)
    (tx : AccountTransaction) (s0 : CachedState) (call : CallSpec)
    (s3 : CachedState) (esteps : Nat) (e1 : String)
    (hkind : tx.kind = .invoke call)
    (hvok : tx.validate_ok = true)
    (hval : flags.validate = true) (hcf : flags.charge_fee = true)
    (hvst : tx.validate_steps ≤ min bc.vc.validate_max_n_steps (execBudget bc flags tx))
    (hrun : runCall call (execBudget bc flags tx) (bumpNonce s0 tx.sender)
      = (s3, esteps, none))
    (hexc : boundsExceeded tx
        (receiptParts bc tx s3
          { vm_steps := tx.validate_steps + esteps, n_reverted_steps := 0 }).2.1
        (receiptParts bc tx s3
          { vm_steps := tx.validate_steps + esteps, n_reverted_steps := 0 }).2.2
      = some e1) :
    executeRaw bc flags tx s0 =
      (let s4 : CachedState := { s3 with writes := (bumpNonce s0 tx.sender).writes }
       let r1 : ComputationResources :=
         { vm_steps := tx.validate_steps, n_reverted_steps := esteps }
       let parts1 := receiptParts bc tx s4 r1
       chargeAndFinish bc flags tx s0 s4 r1 (some e1) parts1.1 parts1.2.1
         tx.max_possible_fee) := by
  have hnotlt : ¬ (min bc.vc.validate_max_n_steps (execBudget bc flags tx) < tx.validate_steps) :=
    Nat.not_lt.mpr hvst
  unfold executeRaw
  simp only [isDuplicateDeclare, hkind, hval, hvok, Bool.not_true, Bool.and_false,
    Bool.false_and, Bool.and_true, if_false, Bool.true_and, decide_eq_false hnotlt,
    if_true, hrun, Bool.false_eq_true, hcf]
  rw [hexc]

theorem boundsExceeded_names_resource (tx : AccountTransaction) (g : GasVector)
    (f : Nat) (e : String) (h : boundsExceeded tx g f = some e) :
    e = "Insufficient max fee" ∨ e = "Insufficient max L1Gas"
      ∨ e = "Insufficient max L2Gas" ∨ e = "Insufficient max L1DataGas" := by
  unfold boundsExceeded at h
  rcases hv : tx.version with _ | _ | _ <;> simp only [hv] at h
  · split at h <;> simp_all
  · split at h <;> simp_all
  · rcases hb : tx.resource_bounds with b | b <;> simp only [hb] at h
    · split at h <;> simp_all
    · split at h
      · simp_all
      · split at h
        · simp_all
        · split at h <;> simp_all

/-- C5: when actual consumption exceeds the declared max fee or resource
bounds only post-execution, the transaction is a revert (an ok receipt,
never an abort): the charged fee is snapped to the bound-derived value
(equal to the fee of the gas vector whose usage set the bounds) rather than
actual consumption, and the revert error names the insufficient resource
kind (max fee for deprecated transactions, L1 gas, L2 gas or L1 data gas
for v3). -/
theorem claim_C5_post_execution_bound_failure (bc : BlockContext)
    (flags : ExecutionFlags) (tx : AccountTransaction) (s0 : CachedState)
    (call : CallSpec) (s3 : CachedState) (esteps : Nat) (e1 : String)
    (hkind : tx.kind = .invoke call)
    (hvok : tx.validate_ok = true)
    (hval : flags.validate = true) (hcf : flags.charge_fee = true)
    (hvst : tx.validate_steps ≤ min bc.vc.validate_max_n_steps (execBudget bc flags tx))
    (hrun : runCall call (execBudget bc flags tx) (bumpNonce s0 tx.sender)
      = (s3, esteps, none)) :
    let s4 : CachedState := { s3 with writes := (bumpNonce s0 tx.sender).writes }
    let r1 : ComputationResources :=
      { vm_steps := tx.validate_steps, n_reverted_steps := esteps }
    let parts1 := receiptParts bc tx s4 r1
    boundsExceeded tx
        (receiptParts bc tx s3
          { vm_steps := tx.validate_steps + esteps, n_reverted_steps := 0 }).2.1
        (receiptParts bc tx s3
          { vm_steps := tx.validate_steps + esteps, n_reverted_steps := 0 }).2.2
      = some e1 →
    tx.max_possible_fee ≤ s4.storageAt (bc.fee_token tx.fee_type, balanceKeyLow tx.sender) →
    (executeRaw bc flags tx s0).1
        = .ok { fee := tx.max_possible_fee, gas := parts1.2.1, da_gas := parts1.1,
                resources := r1, revert_error := some e1 }
    ∧ (e1 = "Insufficient max fee" ∨ e1 = "Insufficient max L1Gas"
        ∨ e1 = "Insufficient max L2Gas" ∨ e1 = "Insufficient max L1DataGas")
    ∧ (∀ g : GasVector,
        tx.version = .v3 →
        tx.resource_bounds = .allResources
          ⟨⟨g.l1_gas, (bc.prices FeeType.strk).l1_gas_price⟩,
            ⟨g.l2_gas, (bc.prices FeeType.strk).l2_gas_price⟩,
            ⟨g.l1_data_gas, (bc.prices FeeType.strk).l1_data_gas_price⟩⟩ →
        tx.max_possible_fee = get_fee_by_gas_vector (bc.prices tx.fee_type) g) := by
  intro s4 r1 parts1 hexc hbal
  refine ⟨?_, boundsExceeded_names_resource tx _ _ e1 hexc, ?_⟩
  · rw [executeRaw_invoke_postExceeded bc flags tx s0 call s3 esteps e1
      hkind hvok hval hcf hvst hrun hexc]
    exact chargeAndFinish_fst_ok bc flags tx s0 s4 r1 (some e1)
      parts1.1 parts1.2.1 tx.max_possible_fee hbal
  · intro g hver hbounds
    unfold AccountTransaction.max_possible_fee AccountTransaction.fee_type
    rw [hver, hbounds]
    unfold get_fee_by_gas_vector
    rfl

/-- Concrete v3 all-bounds recursion transaction whose actual consumption
exceeds its L2-gas bound only post-execution. -/
def c5tx : AccountTransaction :=
  { sender := 5, version := .v3, max_fee := 0,
    resource_bounds := .allResources
      { l1_gas := { max_amount := 0, max_price_per_unit := 20 },
        l2_gas := { max_amount := 300000, max_price_per_unit := 2 },
        l1_data_gas := { max_amount := 100, max_price_per_unit := 6 } },
    validate_ok := true, validate_steps := 400,
    kind := .invoke (.recurse 2) }

/-- Witness for C5: the transaction reverts (no abort) with the fee snapped
to the bound-derived value and a revert error naming the L2-gas resource;
the snapped fee equals the fee of the gas vector that set the bounds. -/
theorem claim_C5_witness :
    (executeRaw defaultBlockContext sequentialFlags c5tx (initialState 5 1000000000)).1
      = .ok { fee := 600600, gas := { l1_gas := 0, l2_gas := 320000, l1_data_gas := 96 },
              da_gas := 96, resources := { vm_steps := 400, n_reverted_steps := 2800 },
              revert_error := some "Insufficient max L2Gas" }
    ∧ c5tx.max_possible_fee
      = get_fee_by_gas_vector (defaultBlockContext.prices c5tx.fee_type)
          { l1_gas := 0, l2_gas := 300000, l1_data_gas := 100 } := by
  have hrun : runCall (.recurse 2) (execBudget defaultBlockContext sequentialFlags c5tx)
      (bumpNonce (initialState 5 1000000000) c5tx.sender)
      = (bumpNonce (initialState 5 1000000000) c5tx.sender, 2800, none) := by
    simp only [runCall]
    rw [if_pos (by decide)]
    rfl
  have h := claim_C5_post_execution_bound_failure defaultBlockContext sequentialFlags c5tx
    (initialState 5 1000000000) (.recurse 2)
    (bumpNonce (initialState 5 1000000000) c5tx.sender) 2800 "Insufficient max L2Gas"
    rfl rfl rfl rfl (by decide) hrun (by decide) (by decide)
  exact ⟨h.1.trans (congrArg Except.ok (by decide)),
    h.2.2 { l1_gas := 0, l2_gas := 300000, l1_data_gas := 100 } rfl rfl⟩


theorem l1_gas_to_steps_eq (vc : VersionedConstants) (g : Nat)
    (hnum : 0 < vc.step_cost_num)
    (hdvd : vc.step_cost_num ∣ vc.step_cost_den) :
    l1_gas_to_steps vc g = steps_per_l1_gas vc * g := by
  obtain ⟨k, hk⟩ := hdvd
  unfold l1_gas_to_steps steps_per_l1_gas
  rw [hk]
  have h1 : g * (vc.step_cost_num * k) = vc.step_cost_num * (k * g) := by ring
  rw [h1, Nat.mul_div_cancel_left _ hnum, Nat.mul_div_cancel_left _ hnum]

/-- C6: the derivation of the execution context's max-steps budget.  A legacy
max-fee transaction converts the max fee to L1 gas (dividing by the L1-gas
price, with floor) and then multiplies by steps-per-L1-gas; a v3 transaction
with L1-gas-only bounds multiplies the L1-gas bound by steps-per-L1-gas; a
v3 all-resources transaction divides the L2-gas bound by the per-step gas
cost, and the L1-gas and L1-data-gas bounds do not gate the step count. -/
theorem claim_C6_max_steps_derivation (bc : BlockContext) (tx : AccountTransaction)
    (hnum : 0 < bc.vc.step_cost_num)
    (hdvd : bc.vc.step_cost_num ∣ bc.vc.step_cost_den) :
    (tx.version = .v1 →
      steps_for_budget bc tx
        = steps_per_l1_gas bc.vc * (tx.max_fee / bc.eth_prices.l1_gas_price))
    ∧ (∀ b : ResourceBounds, tx.version = .v3 → tx.resource_bounds = .l1Gas b →
        steps_for_budget bc tx = steps_per_l1_gas bc.vc * b.max_amount)
    ∧ (∀ b : AllResourceBounds, tx.version = .v3 →
        tx.resource_bounds = .allResources b →
        steps_for_budget bc tx = b.l2_gas.max_amount / bc.vc.step_gas_cost)
    ∧ (∀ b : AllResourceBounds, ∀ b1 bd : ResourceBounds, tx.version = .v3 →
        tx.resource_bounds = .allResources b →
        steps_for_budget bc
            { tx with resource_bounds :=
                .allResources { b with l1_gas := b1, l1_data_gas := bd } }
          = steps_for_budget bc tx) := by
  refine ⟨?_, ?_, ?_, ?_⟩
  · intro hv
    unfold steps_for_budget
    rw [hv]
    exact l1_gas_to_steps_eq bc.vc _ hnum hdvd
  · intro b hv hb
    unfold steps_for_budget
    rw [hv, hb]
    exact l1_gas_to_steps_eq bc.vc _ hnum hdvd
  · intro b hv hb
    unfold steps_for_budget
    rw [hv, hb]
  · intro b b1 bd hv hb
    unfold steps_for_budget
    rw [hv, hb]

/-- Concrete transactions for the C6 witness: legacy max-fee, v3 L1-only
bounds and v3 all-resources bounds. -/
def c6txV1 : AccountTransaction :=
  { sender := 5, version := .v1, max_fee := 100000,
    resource_bounds := default_all_resource_bounds,
    validate_ok := true, validate_steps := 400, kind := .invoke CallSpec.trivialCall }

def c6txL1 : AccountTransaction :=
  { c6txV1 with
    version := TxVersion.v3,
    resource_bounds := ValidResourceBounds.l1Gas { max_amount := 200, max_price_per_unit := 1 } }

def c6txAll : AccountTransaction :=
  { c6txV1 with version := .v3, resource_bounds := default_all_resource_bounds }

/-- Witness for C6 at the default context: 400 steps per L1 gas, Eth L1-gas
price 10, L2 step cost 100. -/
theorem claim_C6_witness :
    steps_for_budget defaultBlockContext c6txV1 = 400 * (100000 / 10)
    ∧ steps_for_budget defaultBlockContext c6txL1 = 400 * 200
    ∧ steps_for_budget defaultBlockContext c6txAll = 100000000 / 100 := by
  refine ⟨?_, ?_, ?_⟩
  · exact ((claim_C6_max_steps_derivation defaultBlockContext c6txV1 (by decide)
      (by decide)).1 rfl).trans (by decide)
  · exact ((claim_C6_max_steps_derivation defaultBlockContext c6txL1 (by decide)
      (by decide)).2.1 { max_amount := 200, max_price_per_unit := 1 } rfl (by rfl)).trans (by decide)
  · exact ((claim_C6_max_steps_derivation defaultBlockContext c6txAll (by decide)
      (by decide)).2.2.1
      { l1_gas := { max_amount := 1000000, max_price_per_unit := 20 },
        l2_gas := { max_amount := 100000000, max_price_per_unit := 2 },
        l1_data_gas := { max_amount := 1000000, max_price_per_unit := 6 } } rfl (by rfl)).trans
      (by decide)


/-- C7: doubling a legacy max-fee transaction's max fee exactly doubles the
derived max-steps ceiling, while the execution outcome — consumed steps,
consumed gas vector, charged fee and final state — is unchanged, provided
the ceiling is not the binding constraint and the actual fee is within the
original max fee. -/
theorem claim_C7_bound_doubling (bc : BlockContext) (flags : ExecutionFlags)
    (tx : AccountTransaction) (s0 : CachedState) (d : Nat)
    (hv : tx.version = .v1)
    (hkind : tx.kind = .invoke (.recurse d))
    (hvok : tx.validate_ok = true)
    (hval : flags.validate = true) (hcf : flags.charge_fee = true)
    (hnum : 0 < bc.vc.step_cost_num)
    (hdvd : bc.vc.step_cost_num ∣ bc.vc.step_cost_den)
    (hp0 : 0 < bc.eth_prices.l1_gas_price)
    (hp : bc.eth_prices.l1_gas_price ∣ tx.max_fee)
    (hvst : tx.validate_steps ≤ min bc.vc.validate_max_n_steps (execBudget bc flags tx))
    (hfit : recurseBaseSteps + recursePerCallSteps * d ≤ execBudget bc flags tx)
    (hexc : boundsExceeded tx
        (receiptParts bc tx (bumpNonce s0 tx.sender)
          { vm_steps := tx.validate_steps + (recurseBaseSteps + recursePerCallSteps * d),
            n_reverted_steps := 0 }).2.1
        (receiptParts bc tx (bumpNonce s0 tx.sender)
          { vm_steps := tx.validate_steps + (recurseBaseSteps + recursePerCallSteps * d),
            n_reverted_steps := 0 }).2.2
      = none) :
    steps_for_budget bc { tx with max_fee := 2 * tx.max_fee }
        = 2 * steps_for_budget bc tx
    ∧ executeRaw bc flags { tx with max_fee := 2 * tx.max_fee } s0
        = executeRaw bc flags tx s0 := by
  obtain ⟨q, hq⟩ := hp
  have hdouble : steps_for_budget bc { tx with max_fee := 2 * tx.max_fee }
      = 2 * steps_for_budget bc tx := by
    unfold steps_for_budget
    rw [show ({ tx with max_fee := 2 * tx.max_fee } : AccountTransaction).version
        = tx.version from rfl, hv]
    rw [show ({ tx with max_fee := 2 * tx.max_fee } : AccountTransaction).max_fee
        = 2 * tx.max_fee from rfl]
    rw [l1_gas_to_steps_eq bc.vc _ hnum hdvd, l1_gas_to_steps_eq bc.vc _ hnum hdvd]
    rw [hq]
    have h2 : 2 * (bc.eth_prices.l1_gas_price * q)
        = bc.eth_prices.l1_gas_price * (2 * q) := by ring
    rw [h2, Nat.mul_div_cancel_left _ hp0, Nat.mul_div_cancel_left _ hp0]
    ring
  refine ⟨hdouble, ?_⟩
  -- budgets: the doubled budget dominates the original
  have hB : execBudget bc flags tx
      ≤ execBudget bc flags { tx with max_fee := 2 * tx.max_fee } := by
    unfold execBudget
    rw [hcf, if_pos rfl, if_pos rfl, hdouble]
    exact min_le_min (le_refl _) (by omega)
  have hvst2 : ({ tx with max_fee := 2 * tx.max_fee } : AccountTransaction).validate_steps
      ≤ min bc.vc.validate_max_n_steps
        (execBudget bc flags { tx with max_fee := 2 * tx.max_fee }) := by
    show tx.validate_steps ≤ _
    exact le_trans hvst (min_le_min (le_refl _) hB)
  have hfit2 : recurseBaseSteps + recursePerCallSteps * d
      ≤ execBudget bc flags { tx with max_fee := 2 * tx.max_fee } :=
    le_trans hfit hB
  have hrun1 : runCall (.recurse d) (execBudget bc flags tx) (bumpNonce s0 tx.sender)
      = (bumpNonce s0 tx.sender, recurseBaseSteps + recursePerCallSteps * d, none) := by
    simp only [runCall]
    rw [if_pos hfit]
  have hrun2 : runCall (.recurse d)
      (execBudget bc flags { tx with max_fee := 2 * tx.max_fee })
      (bumpNonce s0 ({ tx with max_fee := 2 * tx.max_fee } : AccountTransaction).sender)
      = (bumpNonce s0 tx.sender, recurseBaseSteps + recursePerCallSteps * d, none) := by
    simp only [runCall]
    rw [if_pos hfit2]
  have hexc2 : boundsExceeded { tx with max_fee := 2 * tx.max_fee }
      (receiptParts bc { tx with max_fee := 2 * tx.max_fee } (bumpNonce s0 tx.sender)
        { vm_steps := tx.validate_steps + (recurseBaseSteps + recursePerCallSteps * d),
          n_reverted_steps := 0 }).2.1
      (receiptParts bc { tx with max_fee := 2 * tx.max_fee } (bumpNonce s0 tx.sender)
        { vm_steps := tx.validate_steps + (recurseBaseSteps + recursePerCallSteps * d),
          n_reverted_steps := 0 }).2.2
      = none := by
    have hparts : receiptParts bc { tx with max_fee := 2 * tx.max_fee } (bumpNonce s0 tx.sender)
        { vm_steps := tx.validate_steps + (recurseBaseSteps + recursePerCallSteps * d),
          n_reverted_steps := 0 }
        = receiptParts bc tx (bumpNonce s0 tx.sender)
        { vm_steps := tx.validate_steps + (recurseBaseSteps + recursePerCallSteps * d),
          n_reverted_steps := 0 } := rfl
    rw [hparts]
    unfold boundsExceeded at hexc ⊢
    rw [show ({ tx with max_fee := 2 * tx.max_fee } : AccountTransaction).version
        = tx.version from rfl, hv] at hexc ⊢
    rw [show ({ tx with max_fee := 2 * tx.max_fee } : AccountTransaction).max_fee
        = 2 * tx.max_fee from rfl]
    simp only [hv] at hexc ⊢
    split at hexc
    · exact absurd hexc (by simp)
    · rw [if_neg (by omega)]
  have h1 := executeRaw_invoke_ok bc flags tx s0 (.recurse d) (bumpNonce s0 tx.sender)
    (recurseBaseSteps + recursePerCallSteps * d) hkind hvok hval hvst hrun1
    (by rw [hcf, if_pos rfl]; exact hexc)
  have h2 := executeRaw_invoke_ok bc flags { tx with max_fee := 2 * tx.max_fee } s0
    (.recurse d) (bumpNonce s0 tx.sender)
    (recurseBaseSteps + recursePerCallSteps * d) hkind hvok hval hvst2 hrun2
    (by rw [hcf, if_pos rfl]; exact hexc2)
  rw [h1, h2]
  rfl

/-- Concrete legacy max-fee recursion transaction for the C7 witness. -/
def c7tx : AccountTransaction :=
  { sender := 5, version := .v1, max_fee := 4000000,
    resource_bounds := default_all_resource_bounds,
    validate_ok := true, validate_steps := 400,
    kind := .invoke (.recurse 2) }

/-- Witness for C7: doubling the max fee doubles the derived step budget and
leaves the execution outcome unchanged. -/
theorem claim_C7_witness :
    steps_for_budget defaultBlockContext { c7tx with max_fee := 2 * c7tx.max_fee }
        = 2 * steps_for_budget defaultBlockContext c7tx
    ∧ executeRaw defaultBlockContext sequentialFlags
          { c7tx with max_fee := 2 * c7tx.max_fee } (initialState 5 1000000)
        = executeRaw defaultBlockContext sequentialFlags c7tx (initialState 5 1000000)
    ∧ steps_for_budget defaultBlockContext c7tx = 160000000 := by
  have h := claim_C7_bound_doubling defaultBlockContext sequentialFlags c7tx
    (initialState 5 1000000) 2 rfl rfl rfl rfl rfl (by decide) (by decide) (by decide)
    (by decide) (by decide) (by decide) (by decide)
  exact ⟨h.1, h.2, by decide⟩


/-- Replace a transaction's payload with a failing recursion of the given
depth, keeping every other field. -/
def withFail (tx : AccountTransaction) (d : Nat) : AccountTransaction :=
  { tx with kind := .invoke (.recursiveFail d) }

/-- C8: for the fixed recursive workload that reverts at the innermost call,
total charged steps and charged fee are non-decreasing in recursion depth;
consecutive-depth step deltas are constant and the depth-100 step growth is
exactly 100 times the single-step delta; the fee deltas are likewise
constant and 100-fold — unconditionally under all-resources pricing, and
under legacy/L1-only (NoL2Gas) pricing whenever the step cost of one extra
call is a whole number of L1 gas units (as with the repository's 800-step
calls at 400 steps per unit); each depth's receipt is the pipeline's actual
revert receipt. -/
theorem claim_C8_reverted_steps_linear (bc : BlockContext) (flags : ExecutionFlags)
    (tx : AccountTransaction) (s0 : CachedState)
    (hvok : tx.validate_ok = true)
    (hval : flags.validate = true) (hcf : flags.charge_fee = true)
    (hv0 : tx.version ≠ .v0)
    (hvst : tx.validate_steps ≤ min bc.vc.validate_max_n_steps (execBudget bc flags tx)) :
    let B := execBudget bc flags tx
    let sb := bumpNonce s0 tx.sender
    let stepsAt : Nat → Nat := fun d =>
      tx.validate_steps + (recurseBaseSteps + recursePerCallSteps * d)
    let rAt : Nat → ComputationResources := fun d =>
      { vm_steps := tx.validate_steps,
        n_reverted_steps := recurseBaseSteps + recursePerCallSteps * d }
    let feeAt : Nat → Nat := fun d => (receiptParts bc tx sb (rAt d)).2.2
    (∀ d, recurseBaseSteps + recursePerCallSteps * d ≤ B →
      boundsExceeded tx (receiptParts bc tx sb (rAt d)).2.1 (feeAt d) = none →
      feeAt d ≤ s0.storageAt (bc.fee_token tx.fee_type, balanceKeyLow tx.sender) →
      (executeRaw bc flags (withFail tx d) s0).1
        = .ok { fee := feeAt d, gas := (receiptParts bc tx sb (rAt d)).2.1,
                da_gas := (receiptParts bc tx sb (rAt d)).1, resources := rAt d,
                revert_error := some "recursion asserted false" })
    ∧ (∀ d, stepsAt d ≤ stepsAt (d + 1) ∧ feeAt d ≤ feeAt (d + 1))
    ∧ (∀ d, stepsAt (d + 1) - stepsAt d = stepsAt 1 - stepsAt 0)
    ∧ (stepsAt 100 - stepsAt 0 = 100 * (stepsAt 1 - stepsAt 0))
    ∧ (tx.gasMode = .all →
        (∀ d, feeAt (d + 1) - feeAt d = feeAt 1 - feeAt 0)
        ∧ feeAt 100 - feeAt 0 = 100 * (feeAt 1 - feeAt 0))
    ∧ (tx.gasMode = .noL2Gas → 0 < bc.vc.step_cost_den →
        bc.vc.step_cost_den ∣ recursePerCallSteps * bc.vc.step_cost_num →
        (∀ d, feeAt (d + 1) - feeAt d = feeAt 1 - feeAt 0)
        ∧ feeAt 100 - feeAt 0 = 100 * (feeAt 1 - feeAt 0)) := by
  intro B sb stepsAt rAt feeAt
  have hfeeAll : tx.gasMode = .all → ∀ d, feeAt d
      = ((tx.validate_steps + (recurseBaseSteps + recursePerCallSteps * d))
            * bc.vc.step_gas_cost) * (bc.prices tx.fee_type).l2_gas_price
        + (daGasOf bc.vc (countForFeeCharge sb tx.sender (bc.fee_token tx.fee_type)))
            * (bc.prices tx.fee_type).l1_data_gas_price := by
    intro hmode d
    show get_fee_by_gas_vector _ (gas_vector_of bc.vc tx.gasMode _ _) = _
    rw [hmode]
    simp [gas_vector_of, get_fee_by_gas_vector, ComputationResources.total_charged_steps]
  have hfeeNo : tx.gasMode = .noL2Gas → ∀ d, feeAt d
      = ceilDiv ((tx.validate_steps + (recurseBaseSteps + recursePerCallSteps * d))
            * bc.vc.step_cost_num) bc.vc.step_cost_den
            * (bc.prices tx.fee_type).l1_gas_price
        + (daGasOf bc.vc (countForFeeCharge sb tx.sender (bc.fee_token tx.fee_type)))
            * (bc.prices tx.fee_type).l1_data_gas_price := by
    intro hmode d
    show get_fee_by_gas_vector _ (gas_vector_of bc.vc tx.gasMode _ _) = _
    rw [hmode]
    simp [gas_vector_of, get_fee_by_gas_vector, ComputationResources.total_charged_steps]
  refine ⟨?_, ?_, ?_, ?_, ?_, ?_⟩
  · intro d hfit hexcd hbald
    have hrun : runCall (.recursiveFail d) B sb
        = (sb, recurseBaseSteps + recursePerCallSteps * d,
            some "recursion asserted false") := by
      simp only [runCall]
      rw [if_pos hfit]
    have h := executeRaw_invoke_revert bc flags (withFail tx d) s0 (.recursiveFail d)
      sb (recurseBaseSteps + recursePerCallSteps * d) "recursion asserted false"
      rfl hvok hval hvst hv0 hrun
    rw [h]
    simp only [withFail, hcf, if_true, cachedState_writes_eta, receiptParts_kind,
      boundsExceeded_kind, max_possible_fee_kind, chargeAndFinish_kind]
    rw [show boundsExceeded tx
        (receiptParts bc tx sb (rAt d)).2.1 (receiptParts bc tx sb (rAt d)).2.2
        = none from hexcd]
    simp only [Option.isSome_none, Bool.false_eq_true, if_false]
    exact chargeAndFinish_fst_ok bc flags tx s0 sb (rAt d)
      (some "recursion asserted false") (receiptParts bc tx sb (rAt d)).1
      (receiptParts bc tx sb (rAt d)).2.1 (receiptParts bc tx sb (rAt d)).2.2
      (by rw [storageAt_bumpNonce]; exact hbald)
  · intro d
    constructor
    · simp only [stepsAt, recurseBaseSteps, recursePerCallSteps]
      omega
    · rcases hmode : tx.gasMode with _ | _
      · rw [hfeeNo hmode d, hfeeNo hmode (d + 1)]
        refine Nat.add_le_add_right
          (Nat.mul_le_mul_right _ (ceilDiv_le_ceilDiv _ _ _ ?_)) _
        refine Nat.mul_le_mul_right _ ?_
        simp only [recurseBaseSteps, recursePerCallSteps]
        omega
      · rw [hfeeAll hmode d, hfeeAll hmode (d + 1)]
        refine Nat.add_le_add_right
          (Nat.mul_le_mul_right _ (Nat.mul_le_mul_right _ ?_)) _
        simp only [recurseBaseSteps, recursePerCallSteps]
        omega
  · intro d
    simp only [stepsAt, recurseBaseSteps, recursePerCallSteps]
    omega
  · simp only [stepsAt, recurseBaseSteps, recursePerCallSteps]
    omega
  · intro hmode
    have hstepfee : ∀ d, feeAt (d + 1) = feeAt d
        + (recursePerCallSteps * bc.vc.step_gas_cost)
          * (bc.prices tx.fee_type).l2_gas_price := by
      intro d
      rw [hfeeAll hmode d, hfeeAll hmode (d + 1)]
      ring
    have h100fee : feeAt 100 = feeAt 0
        + 100 * ((recursePerCallSteps * bc.vc.step_gas_cost)
            * (bc.prices tx.fee_type).l2_gas_price) := by
      rw [hfeeAll hmode 0, hfeeAll hmode 100]
      ring
    constructor
    · intro d
      rw [hstepfee d, hstepfee 0, Nat.add_sub_cancel_left, Nat.add_sub_cancel_left]
    · rw [h100fee, hstepfee 0, Nat.add_sub_cancel_left, Nat.add_sub_cancel_left]
  · intro hmode hden hdvd
    obtain ⟨q, hq⟩ := hdvd
    have haff : ∀ d, feeAt d
        = (ceilDiv ((tx.validate_steps + recurseBaseSteps) * bc.vc.step_cost_num)
              bc.vc.step_cost_den + d * q) * (bc.prices tx.fee_type).l1_gas_price
          + (daGasOf bc.vc (countForFeeCharge sb tx.sender (bc.fee_token tx.fee_type)))
              * (bc.prices tx.fee_type).l1_data_gas_price := by
      intro d
      rw [hfeeNo hmode d]
      have h1 : (tx.validate_steps + (recurseBaseSteps + recursePerCallSteps * d))
            * bc.vc.step_cost_num
          = (tx.validate_steps + recurseBaseSteps) * bc.vc.step_cost_num
            + d * q * bc.vc.step_cost_den := by
        rw [show d * q * bc.vc.step_cost_den
            = d * (bc.vc.step_cost_den * q) from by ring, ← hq]
        ring
      rw [h1, ceilDiv_add_mul _ _ _ hden]
    have hstepfee : ∀ d, feeAt (d + 1) = feeAt d
        + q * (bc.prices tx.fee_type).l1_gas_price := by
      intro d
      rw [haff d, haff (d + 1)]
      ring
    have h100fee : feeAt 100 = feeAt 0
        + 100 * (q * (bc.prices tx.fee_type).l1_gas_price) := by
      rw [haff 0, haff 100]
      ring
    constructor
    · intro d
      rw [hstepfee d, hstepfee 0, Nat.add_sub_cancel_left, Nat.add_sub_cancel_left]
    · rw [h100fee, hstepfee 0, Nat.add_sub_cancel_left, Nat.add_sub_cancel_left]

/-- Concrete v3 all-bounds transaction for the C8 witness. -/
def c8tx : AccountTransaction :=
  { sender := 5, version := .v3, max_fee := 0,
    resource_bounds := default_all_resource_bounds,
    validate_ok := true, validate_steps := 400,
    kind := .invoke (.recursiveFail 0) }

/-- Concrete v3 L1-only-bounds transaction for the C8 witness. -/
def c8txL1 : AccountTransaction :=
  { c8tx with resource_bounds := default_l1_resource_bounds }

/-- Witness for C8, under both pricing modes (v3 all-bounds and v3 L1-only
bounds): the failing recursion's receipts at depths 1 and 2 are the
pipeline's revert receipts, and under L1-only bounds the per-depth fee
delta is the constant 40. -/
theorem claim_C8_witness :
    (executeRaw defaultBlockContext sequentialFlags (withFail c8tx 1)
        (initialState 5 1000000000)).1
      = .ok { fee := 480576, gas := { l1_gas := 0, l2_gas := 240000, l1_data_gas := 96 },
              da_gas := 96, resources := { vm_steps := 400, n_reverted_steps := 2000 },
              revert_error := some "recursion asserted false" }
    ∧ (executeRaw defaultBlockContext sequentialFlags (withFail c8tx 2)
        (initialState 5 1000000000)).1
      = .ok { fee := 640576, gas := { l1_gas := 0, l2_gas := 320000, l1_data_gas := 96 },
              da_gas := 96, resources := { vm_steps := 400, n_reverted_steps := 2800 },
              revert_error := some "recursion asserted false" }
    ∧ (executeRaw defaultBlockContext sequentialFlags (withFail c8txL1 1)
        (initialState 5 1000000000)).1
      = .ok { fee := 696, gas := { l1_gas := 6, l2_gas := 0, l1_data_gas := 96 },
              da_gas := 96, resources := { vm_steps := 400, n_reverted_steps := 2000 },
              revert_error := some "recursion asserted false" }
    ∧ (executeRaw defaultBlockContext sequentialFlags (withFail c8txL1 2)
        (initialState 5 1000000000)).1
      = .ok { fee := 736, gas := { l1_gas := 8, l2_gas := 0, l1_data_gas := 96 },
              da_gas := 96, resources := { vm_steps := 400, n_reverted_steps := 2800 },
              revert_error := some "recursion asserted false" }
    ∧ (receiptParts defaultBlockContext c8txL1
          (bumpNonce (initialState 5 1000000000) c8txL1.sender)
          { vm_steps := c8txL1.validate_steps,
            n_reverted_steps := recurseBaseSteps + recursePerCallSteps * 6 }).2.2
        - (receiptParts defaultBlockContext c8txL1
            (bumpNonce (initialState 5 1000000000) c8txL1.sender)
            { vm_steps := c8txL1.validate_steps,
              n_reverted_steps := recurseBaseSteps + recursePerCallSteps * 5 }).2.2
      = 40 := by
  have h := claim_C8_reverted_steps_linear defaultBlockContext sequentialFlags c8tx
    (initialState 5 1000000000) rfl rfl rfl (by decide) (by decide)
  have hL := claim_C8_reverted_steps_linear defaultBlockContext sequentialFlags c8txL1
    (initialState 5 1000000000) rfl rfl rfl (by decide) (by decide)
  exact ⟨(h.1 1 (by decide) (by decide) (by decide)).trans (congrArg Except.ok (by decide)),
    (h.1 2 (by decide) (by decide) (by decide)).trans (congrArg Except.ok (by decide)),
    (hL.1 1 (by decide) (by decide) (by decide)).trans (congrArg Except.ok (by decide)),
    (hL.1 2 (by decide) (by decide) (by decide)).trans (congrArg Except.ok (by decide)),
    ((hL.2.2.2.2.2 rfl (by decide) (by decide)).1 5).trans (by decide)⟩


theorem executeRaw_recurse_da (bc : BlockContext) (flags : ExecutionFlags)
    (tx : AccountTransaction) (s0 : CachedState) (d : Nat)
    (hkind : tx.kind = .invoke (.recurse d))
    (hvok : tx.validate_ok = true)
    (hval : flags.validate = true) (hcf : flags.charge_fee = true)
    (hv0 : tx.version ≠ .v0)
    (hvst : tx.validate_steps ≤ min bc.vc.validate_max_n_steps (execBudget bc flags tx))
    (hbal_mp : tx.max_possible_fee
      ≤ s0.storageAt (bc.fee_token tx.fee_type, balanceKeyLow tx.sender))
    (hbalOK : (receiptParts bc tx (bumpNonce s0 tx.sender)
        { vm_steps := tx.validate_steps + (recurseBaseSteps + recursePerCallSteps * d),
          n_reverted_steps := 0 }).2.2
      ≤ s0.storageAt (bc.fee_token tx.fee_type, balanceKeyLow tx.sender))
    (hbalRev : (receiptParts bc tx (bumpNonce s0 tx.sender)
        { vm_steps := tx.validate_steps, n_reverted_steps := execBudget bc flags tx }).2.2
      ≤ s0.storageAt (bc.fee_token tx.fee_type, balanceKeyLow tx.sender)) :
    ∃ receipt : Receipt, (executeRaw bc flags tx s0).1 = .ok receipt
      ∧ receipt.da_gas = daGasOf bc.vc
          (countForFeeCharge (bumpNonce s0 tx.sender) tx.sender
            (bc.fee_token tx.fee_type)) := by
  have hbal_mp' : tx.max_possible_fee
      ≤ (bumpNonce s0 tx.sender).storageAt
        (bc.fee_token tx.fee_type, balanceKeyLow tx.sender) := by
    rw [storageAt_bumpNonce]; exact hbal_mp
  have hbalOK' := hbalOK
  rw [show s0.storageAt (bc.fee_token tx.fee_type, balanceKeyLow tx.sender)
      = (bumpNonce s0 tx.sender).storageAt
        (bc.fee_token tx.fee_type, balanceKeyLow tx.sender)
    from (storageAt_bumpNonce s0 tx.sender _).symm] at hbalOK' hbalRev
  by_cases hfit : recurseBaseSteps + recursePerCallSteps * d ≤ execBudget bc flags tx
  · have hrun : runCall (.recurse d) (execBudget bc flags tx) (bumpNonce s0 tx.sender)
        = (bumpNonce s0 tx.sender, recurseBaseSteps + recursePerCallSteps * d, none) := by
      simp only [runCall]
      rw [if_pos hfit]
    rcases hx : boundsExceeded tx
        (receiptParts bc tx (bumpNonce s0 tx.sender)
          { vm_steps := tx.validate_steps + (recurseBaseSteps + recursePerCallSteps * d),
            n_reverted_steps := 0 }).2.1
        (receiptParts bc tx (bumpNonce s0 tx.sender)
          { vm_steps := tx.validate_steps + (recurseBaseSteps + recursePerCallSteps * d),
            n_reverted_steps := 0 }).2.2 with _ | e1
    · have h := executeRaw_invoke_ok bc flags tx s0 (.recurse d) (bumpNonce s0 tx.sender)
        (recurseBaseSteps + recursePerCallSteps * d) hkind hvok hval hvst hrun
        (by rw [hcf, if_pos rfl]; exact hx)
      refine ⟨_, by rw [h]; exact chargeAndFinish_fst_ok bc flags tx s0 _ _ none _ _ _ hbalOK', rfl⟩
    · have h := executeRaw_invoke_postExceeded bc flags tx s0 (.recurse d)
        (bumpNonce s0 tx.sender) (recurseBaseSteps + recursePerCallSteps * d) e1
        hkind hvok hval hcf hvst hrun hx
      rw [cachedState_writes_eta] at h
      refine ⟨_, by rw [h]; exact chargeAndFinish_fst_ok bc flags tx s0 _ _ (some e1) _ _ _ hbal_mp', rfl⟩
  · have hrun : runCall (.recurse d) (execBudget bc flags tx) (bumpNonce s0 tx.sender)
        = (bumpNonce s0 tx.sender, execBudget bc flags tx, some "no remaining steps") := by
      simp only [runCall]
      rw [if_neg hfit]
    have h := executeRaw_invoke_revert bc flags tx s0 (.recurse d)
      (bumpNonce s0 tx.sender) (execBudget bc flags tx) "no remaining steps"
      hkind hvok hval hvst hv0 hrun
    rw [cachedState_writes_eta] at h
    rw [hcf] at h
    simp only [if_true] at h
    rcases hx : boundsExceeded tx
        (receiptParts bc tx (bumpNonce s0 tx.sender)
          { vm_steps := tx.validate_steps, n_reverted_steps := execBudget bc flags tx }).2.1
        (receiptParts bc tx (bumpNonce s0 tx.sender)
          { vm_steps := tx.validate_steps, n_reverted_steps := execBudget bc flags tx }).2.2
      with _ | e1
    · rw [hx] at h
      simp only [Option.isSome_none, Bool.false_eq_true, if_false] at h
      refine ⟨_, by rw [h]; exact chargeAndFinish_fst_ok bc flags tx s0 _ _ _ _ _ _ hbalRev, rfl⟩
    · rw [hx] at h
      simp only [Option.isSome_some, if_true] at h
      refine ⟨_, by rw [h]; exact chargeAndFinish_fst_ok bc flags tx s0 _ _ _ _ _ _ hbal_mp', rfl⟩

/-- C9: for a fixed transaction and fixed state diff, the data-availability
gas component of the receipt is identical whether the transaction is priced
under L1-gas-only bounds (NoL2Gas mode) or all-resources bounds (All mode). -/
theorem claim_C9_da_bound_mode_invariant (bc : BlockContext) (flags : ExecutionFlags)
    (tx : AccountTransaction) (s0 : CachedState) (d : Nat)
    (bL : ResourceBounds) (bA : AllResourceBounds)
    (hver : tx.version = .v3)
    (hkind : tx.kind = .invoke (.recurse d))
    (hvok : tx.validate_ok = true)
    (hval : flags.validate = true) (hcf : flags.charge_fee = true) :
    let txL : AccountTransaction := { tx with resource_bounds := .l1Gas bL }
    let txA : AccountTransaction := { tx with resource_bounds := .allResources bA }
    let bal0 := s0.storageAt (bc.fee_token tx.fee_type, balanceKeyLow tx.sender)
    let sb := bumpNonce s0 tx.sender
    tx.validate_steps ≤ min bc.vc.validate_max_n_steps (execBudget bc flags txL) →
    tx.validate_steps ≤ min bc.vc.validate_max_n_steps (execBudget bc flags txA) →
    txL.max_possible_fee ≤ bal0 → txA.max_possible_fee ≤ bal0 →
    (receiptParts bc txL sb
      { vm_steps := tx.validate_steps + (recurseBaseSteps + recursePerCallSteps * d),
        n_reverted_steps := 0 }).2.2 ≤ bal0 →
    (receiptParts bc txA sb
      { vm_steps := tx.validate_steps + (recurseBaseSteps + recursePerCallSteps * d),
        n_reverted_steps := 0 }).2.2 ≤ bal0 →
    (receiptParts bc txL sb
      { vm_steps := tx.validate_steps, n_reverted_steps := execBudget bc flags txL }).2.2
      ≤ bal0 →
    (receiptParts bc txA sb
      { vm_steps := tx.validate_steps, n_reverted_steps := execBudget bc flags txA }).2.2
      ≤ bal0 →
    ∃ r1 r2 : Receipt,
      (executeRaw bc flags txL s0).1 = .ok r1
      ∧ (executeRaw bc flags txA s0).1 = .ok r2
      ∧ txL.gasMode = .noL2Gas ∧ txA.gasMode = .all
      ∧ r1.da_gas = r2.da_gas := by
  intro txL txA bal0 sb hvstL hvstA hmpL hmpA hokL hokA hrevL hrevA
  have hv0L : txL.version ≠ .v0 := by
    show tx.version ≠ .v0
    rw [hver]; simp
  obtain ⟨r1, h1, hda1⟩ := executeRaw_recurse_da bc flags txL s0 d hkind hvok hval hcf
    hv0L hvstL hmpL hokL hrevL
  obtain ⟨r2, h2, hda2⟩ := executeRaw_recurse_da bc flags txA s0 d hkind hvok hval hcf
    hv0L hvstA hmpA hokA hrevA
  refine ⟨r1, r2, h1, h2, ?_, ?_, ?_⟩
  · unfold AccountTransaction.gasMode
    rw [show txL.version = TxVersion.v3 from hver]
    rfl
  · unfold AccountTransaction.gasMode
    rw [show txA.version = TxVersion.v3 from hver]
    rfl
  · exact hda1.trans hda2.symm

/-- Concrete v3 recursion transaction for the C9 witness (L1-only bounds). -/
def c9tx : AccountTransaction :=
  { sender := 5, version := .v3, max_fee := 0,
    resource_bounds := default_l1_resource_bounds,
    validate_ok := true, validate_steps := 400,
    kind := .invoke (.recurse 3) }

/-- Witness for C9: the same transaction under L1-only and all-resources
bounds yields receipts with the identical DA gas component (96), while
the gas vectors and fees differ by mode. -/
theorem claim_C9_witness :
    (executeRaw defaultBlockContext sequentialFlags
        { c9tx with resource_bounds := .l1Gas ⟨100000, 20⟩ }
        (initialState 5 1000000000)).1
      = .ok (⟨776, ⟨10, 0, 96⟩, 96, ⟨4000, 0⟩, none⟩ : Receipt)
    ∧ (executeRaw defaultBlockContext sequentialFlags
        { c9tx with resource_bounds := .allResources ⟨⟨1000000, 20⟩, ⟨100000000, 2⟩, ⟨1000000, 6⟩⟩ }
        (initialState 5 1000000000)).1
      = .ok (⟨800576, ⟨0, 400000, 96⟩, 96, ⟨4000, 0⟩, none⟩ : Receipt) := by
  obtain ⟨r1, r2, h1, h2, hm1, hm2, hda⟩ :=
    claim_C9_da_bound_mode_invariant defaultBlockContext sequentialFlags c9tx
      (initialState 5 1000000000) 3
      { max_amount := 100000, max_price_per_unit := 20 }
      { l1_gas := { max_amount := 1000000, max_price_per_unit := 20 },
        l2_gas := { max_amount := 100000000, max_price_per_unit := 2 },
        l1_data_gas := { max_amount := 1000000, max_price_per_unit := 6 } }
      rfl rfl rfl rfl rfl (by decide) (by decide) (by decide) (by decide)
      (by decide) (by decide) (by decide) (by decide)
  have e1 : (executeRaw defaultBlockContext sequentialFlags
      { c9tx with resource_bounds := .l1Gas ⟨100000, 20⟩ }
      (initialState 5 1000000000)).1
      = .ok (⟨776, ⟨10, 0, 96⟩, 96, ⟨4000, 0⟩, none⟩ : Receipt) := by
    rw [h1]
    have hr1 : r1 = (⟨776, ⟨10, 0, 96⟩, 96, ⟨4000, 0⟩, none⟩ : Receipt) := by
      have := h1.symm.trans (by rfl :
        (executeRaw defaultBlockContext sequentialFlags
          { c9tx with resource_bounds := .l1Gas ⟨100000, 20⟩ }
          (initialState 5 1000000000)).1
        = .ok (⟨776, ⟨10, 0, 96⟩, 96, ⟨4000, 0⟩, none⟩ : Receipt))
      exact Except.ok.inj this
    rw [hr1]
  have e2 : (executeRaw defaultBlockContext sequentialFlags
      { c9tx with resource_bounds := .allResources ⟨⟨1000000, 20⟩, ⟨100000000, 2⟩, ⟨1000000, 6⟩⟩ }
      (initialState 5 1000000000)).1
      = .ok (⟨800576, ⟨0, 400000, 96⟩, 96, ⟨4000, 0⟩, none⟩ : Receipt) := by
    rw [h2]
    have hr2 : r2 = (⟨800576, ⟨0, 400000, 96⟩, 96, ⟨4000, 0⟩, none⟩ : Receipt) := by
      have := h2.symm.trans (by rfl :
        (executeRaw defaultBlockContext sequentialFlags
          { c9tx with resource_bounds := .allResources ⟨⟨1000000, 20⟩, ⟨100000000, 2⟩, ⟨1000000, 6⟩⟩ }
          (initialState 5 1000000000)).1
        = .ok (⟨800576, ⟨0, 400000, 96⟩, 96, ⟨4000, 0⟩, none⟩ : Receipt))
      exact Except.ok.inj this
    rw [hr2]
  exact ⟨e1, e2⟩


theorem writes_storage_writeStorage_self (s : CachedState) (k : Nat × Nat) (v : Nat) :
    (s.writeStorage k v).writes.storage.lookup k = some v := by
  unfold CachedState.writeStorage
  simp [lookup_upsert]

/-- C10: with concurrency mode enabled and a sender distinct from the
sequencer, the fee transfer is speculative — after the transaction
completes, neither the layer's initial-reads set nor its writes set
contains the sequencer's fee-token balance keys (low or high); when the
sender is the sequencer the transfer runs sequentially and the updated
sequencer balance cell is immediately visible on read-back. -/
theorem claim_C10_concurrent_fee_transfer (bc : BlockContext)
    (flags : ExecutionFlags) (tx : AccountTransaction) (s0 : CachedState)
    (hkind : tx.kind = .invoke CallSpec.trivialCall)
    (hvok : tx.validate_ok = true)
    (hval : flags.validate = true) (hcf : flags.charge_fee = true)
    (hcm : flags.concurrency_mode = true)
    (hvst : tx.validate_steps ≤ min bc.vc.validate_max_n_steps (execBudget bc flags tx))
    (hfit : trivialCallSteps ≤ execBudget bc flags tx) :
    let token := bc.fee_token tx.fee_type
    let sb := bumpNonce s0 tx.sender
    let rOK : ComputationResources :=
      { vm_steps := tx.validate_steps + trivialCallSteps, n_reverted_steps := 0 }
    let parts := receiptParts bc tx sb rOK
    boundsExceeded tx parts.2.1 parts.2.2 = none →
    parts.2.2 ≤ s0.storageAt (token, balanceKeyLow tx.sender) →
    (tx.sender ≠ bc.sequencer_address →
      ∀ k : Nat × Nat,
        (k = (token, balanceKeyLow bc.sequencer_address)
          ∨ k = (token, balanceKeyHigh bc.sequencer_address)) →
        s0.initial_reads.storage.lookup k = none →
        s0.writes.storage.lookup k = none →
        (executeRaw bc flags tx s0).2.initial_reads.storage.lookup k = none
        ∧ (executeRaw bc flags tx s0).2.writes.storage.lookup k = none)
    ∧ (tx.sender = bc.sequencer_address →
        (executeRaw bc flags tx s0).2.storageAt
            (token, balanceKeyLow bc.sequencer_address)
          = s0.storageAt (token, balanceKeyLow bc.sequencer_address)
        ∧ (executeRaw bc flags tx s0).2.writes.storage.lookup
            (token, balanceKeyLow bc.sequencer_address)
          = some (s0.storageAt (token, balanceKeyLow bc.sequencer_address))) := by
  intro token sb rOK parts hexc hbal
  have hrun : runCall CallSpec.trivialCall (execBudget bc flags tx) sb
      = (sb, trivialCallSteps, none) := by
    simp only [runCall]
    rw [if_pos hfit]
  have h := executeRaw_invoke_ok bc flags tx s0 CallSpec.trivialCall sb
    trivialCallSteps hkind hvok hval hvst hrun
    (by rw [hcf, if_pos rfl]; exact hexc)
  have hbal' : parts.2.2 ≤ sb.storageAt (token, balanceKeyLow tx.sender) := by
    show parts.2.2 ≤ (bumpNonce s0 tx.sender).storageAt (token, balanceKeyLow tx.sender)
    rw [storageAt_bumpNonce]
    exact hbal
  constructor
  · -- speculative branch: sender distinct from sequencer
    intro hne k hk hk0i hk0w
    have hcond : (flags.concurrency_mode && tx.sender != bc.sequencer_address) = true := by
      rw [hcm]
      simp [hne]
    have hstate : (executeRaw bc flags tx s0).2
        = ((((sb.readStorage (token, balanceKeyLow tx.sender)).2.readStorage
              (token, balanceKeyHigh tx.sender)).2.writeStorage
              (token, balanceKeyLow tx.sender)
              (sb.storageAt (token, balanceKeyLow tx.sender) - parts.2.2)).writeStorage
              (token, balanceKeyHigh tx.sender)
              ((sb.readStorage (token, balanceKeyLow tx.sender)).2.storageAt
                (token, balanceKeyHigh tx.sender))) := by
      rw [h]
      show (chargeAndFinish bc flags tx s0 sb rOK none parts.1 parts.2.1 parts.2.2).2 = _
      unfold chargeAndFinish
      simp only [hcf, if_true, readStorage_fst]
      rw [if_neg (Nat.not_lt.mpr hbal'), if_pos hcond]
    -- the four touched keys are the sender's balance cells, distinct from k
    have hkLow : k ≠ (token, balanceKeyLow tx.sender) := by
      rcases hk with hk | hk <;> rw [hk] <;>
        simp only [ne_eq, Prod.mk.injEq, balanceKeyLow, balanceKeyHigh, true_and] <;> omega
    have hkHigh : k ≠ (token, balanceKeyHigh tx.sender) := by
      rcases hk with hk | hk <;> rw [hk] <;>
        simp only [ne_eq, Prod.mk.injEq, balanceKeyLow, balanceKeyHigh, true_and] <;> omega
    rw [hstate]
    constructor
    · rw [show ∀ s : CachedState, ∀ kk v, (s.writeStorage kk v).initial_reads
          = s.initial_reads from fun _ _ _ => rfl]
      rw [show ∀ s : CachedState, ∀ kk v, (s.writeStorage kk v).initial_reads
          = s.initial_reads from fun _ _ _ => rfl]
      rw [initialReads_storage_readStorage_ne _ _ _ hkHigh,
        initialReads_storage_readStorage_ne _ _ _ hkLow,
        initialReads_storage_bumpNonce]
      exact hk0i
    · rw [writes_storage_writeStorage_ne _ _ _ _ hkHigh,
        writes_storage_writeStorage_ne _ _ _ _ hkLow]
      rw [show ((sb.readStorage (token, balanceKeyLow tx.sender)).2.readStorage
            (token, balanceKeyHigh tx.sender)).2.writes
          = (sb.readStorage (token, balanceKeyLow tx.sender)).2.writes
          from writes_readStorage _ _]
      rw [show (sb.readStorage (token, balanceKeyLow tx.sender)).2.writes = sb.writes
          from writes_readStorage _ _]
      rw [writes_storage_bumpNonce]
      exact hk0w
  · -- sequencer-as-sender: sequential transfer, write immediately visible
    intro heq
    have hcond : ¬ ((flags.concurrency_mode && tx.sender != bc.sequencer_address) = true) := by
      rw [heq]
      simp
    have hks : ((token, balanceKeyLow bc.sequencer_address) : Nat × Nat)
        = (token, balanceKeyLow tx.sender) := by rw [heq]
    have hkh : ((token, balanceKeyHigh bc.sequencer_address) : Nat × Nat)
        = (token, balanceKeyHigh tx.sender) := by rw [heq]
    have hLH : ((token, balanceKeyLow tx.sender) : Nat × Nat)
        ≠ (token, balanceKeyHigh tx.sender) := by
      simp only [ne_eq, Prod.mk.injEq, balanceKeyLow, balanceKeyHigh, true_and]
      omega
    rw [h]
    show (chargeAndFinish bc flags tx s0 sb rOK none parts.1 parts.2.1 parts.2.2).2.storageAt _
          = _
      ∧ (chargeAndFinish bc flags tx s0 sb rOK none parts.1 parts.2.1
          parts.2.2).2.writes.storage.lookup _ = _
    unfold chargeAndFinish
    simp only [hcf, if_true, readStorage_fst]
    rw [if_neg (Nat.not_lt.mpr hbal'), if_neg hcond]
    rw [hks, hkh]
    constructor
    · simp only [storageAt_writeStorage, storageAt_readStorage, if_pos rfl, if_true,
        if_neg hLH, if_neg (Ne.symm hLH), storageAt_bumpNonce]
      have hb : parts.2.2 ≤ s0.storageAt (token, balanceKeyLow tx.sender) := hbal
      simp only [show token = bc.fee_token tx.fee_type from rfl,
        show sb = bumpNonce s0 tx.sender from rfl, storageAt_bumpNonce] at hb ⊢
      omega
    · rw [writes_storage_writeStorage_ne _ _ _ _ hLH,
        writes_storage_writeStorage_self]
      simp only [storageAt_writeStorage, storageAt_readStorage, if_pos rfl, if_true,
        if_neg hLH, if_neg (Ne.symm hLH), storageAt_bumpNonce]
      have hb : parts.2.2 ≤ s0.storageAt (token, balanceKeyLow tx.sender) := hbal
      simp only [show token = bc.fee_token tx.fee_type from rfl,
        show sb = bumpNonce s0 tx.sender from rfl, storageAt_bumpNonce] at hb ⊢
      congr 1
      omega

/-- Concrete trivial-call invoke from a non-sequencer sender. -/
def c10tx : AccountTransaction :=
  { sender := 5, version := .v3, max_fee := 0,
    resource_bounds := default_all_resource_bounds,
    validate_ok := true, validate_steps := 400,
    kind := .invoke CallSpec.trivialCall }

/-- The same transaction sent by the sequencer itself (address 7). -/
def c10txSeq : AccountTransaction := { c10tx with sender := 7 }

/-- Witness for C10: under concurrency mode the sequencer balance keys are
absent from the transactional layer's initial reads and writes when the
sender is not the sequencer, and when the sender is the sequencer the
balance cell's updated value is immediately visible. -/
theorem claim_C10_witness :
    (executeRaw defaultBlockContext concurrencyFlags c10tx
        (initialState 5 1000000000)).2.initial_reads.storage.lookup
        (1002, balanceKeyLow 7) = none
    ∧ (executeRaw defaultBlockContext concurrencyFlags c10tx
        (initialState 5 1000000000)).2.writes.storage.lookup
        (1002, balanceKeyLow 7) = none
    ∧ (executeRaw defaultBlockContext concurrencyFlags c10tx
        (initialState 5 1000000000)).2.initial_reads.storage.lookup
        (1002, balanceKeyHigh 7) = none
    ∧ (executeRaw defaultBlockContext concurrencyFlags c10tx
        (initialState 5 1000000000)).2.writes.storage.lookup
        (1002, balanceKeyHigh 7) = none
    ∧ (executeRaw defaultBlockContext concurrencyFlags c10txSeq
        (initialState 7 1000000000)).2.storageAt (1002, balanceKeyLow 7)
      = 1000000000
    ∧ (executeRaw defaultBlockContext concurrencyFlags c10txSeq
        (initialState 7 1000000000)).2.writes.storage.lookup
        (1002, balanceKeyLow 7) = some 1000000000 := by
  have hA := claim_C10_concurrent_fee_transfer defaultBlockContext concurrencyFlags c10tx
    (initialState 5 1000000000) rfl rfl rfl rfl rfl (by decide) (by decide)
    (by decide) (by decide)
  have hB := claim_C10_concurrent_fee_transfer defaultBlockContext concurrencyFlags c10txSeq
    (initialState 7 1000000000) rfl rfl rfl rfl rfl (by decide) (by decide)
    (by decide) (by decide)
  have hAlow := hA.1 (by decide) (1002, balanceKeyLow 7) (Or.inl (by decide)) rfl rfl
  have hAhigh := hA.1 (by decide) (1002, balanceKeyHigh 7) (Or.inr (by decide)) rfl rfl
  have hBseq := hB.2 (by decide)
  refine ⟨hAlow.1, hAlow.2, hAhigh.1, hAhigh.2, ?_, ?_⟩
  · exact hBseq.1.trans (by decide)
  · exact hBseq.2.trans (by decide)

end Sequencer
